import Mathlib

/-!
Verification of the budget-computation core of the Budget_app repository
(`src/utils/helpers.ts`, the `effectiveBudget` helper of the context
provider, and the data model of `src/types.ts`).

Modelling conventions:
* JavaScript numbers used for money (`amount`, `budget`, rollover values)
  are modelled as exact rationals `ℚ`.
* `recurringDayOfMonth` is a natural number (the UI only produces 1–28,
  the engine clamps with `Math.min`).
* JS `Date` values are modelled by their civil calendar components
  (proleptic Gregorian, the calendar JS uses).  The environment's local
  timezone is modelled by an explicit constant offset `tz` in minutes
  east of UTC (`-1439 ≤ tz ≤ 1439` covers every real offset); daylight
  saving transitions are not modelled (the offset is constant).
  `new Date(y, m, d)` builds a local civil date (with the JS year rule
  mapping 0–99 to 1900–1999 and out-of-range month/day rolling over),
  and `Date.prototype.toISOString` renders the instant in UTC, i.e. the
  local components shifted by `-tz` minutes.
* JS `Number(s)` is modelled on strings of decimal digits (including the
  empty string, which JS converts to 0): these give `some`; any other
  string gives `none`.  That `none` coincides with JS (`NaN`) whenever
  the string contains a character outside the JS numeric-literal
  alphabet (`jsNumericChar`); strings built from alphabet characters
  that are not plain digit runs (signs, decimals, exponents, hex,
  whitespace, `Infinity`) never arise in the key formats this app
  produces and are outside the model, so theorems concluding a
  `none`/null result only ever assume a character outside that
  alphabet.
* Fallible operations (key parsing feeding `format`, `toISOString` on an
  invalid date, …) are modelled with `Option`; `none` corresponds to the
  JS code throwing or producing an `Invalid Date`.
-/

namespace BudgetApp

/-- `Category` from `src/types.ts`. -/
structure Category where
  id : String
  name : String
  icon : String
  color : String
  budget : ℚ
  isFixed : Bool
  rollover : Bool
deriving DecidableEq, Repr

/-- `Expense` from `src/types.ts`. -/
structure Expense where
  id : String
  categoryId : String
  amount : ℚ
  note : String
  date : String
  isRecurring : Bool
  recurringDayOfMonth : Option Nat
deriving DecidableEq, Repr

/-- `RolloverMap = Record<string, Record<string, number>>` from
`src/types.ts`, as an association list (month key ↦ category id ↦ value). -/
def RolloverMap : Type := List (String × List (String × ℚ))

/-- `rollovers[monthKey]?.[catId]`, `none` when either key is absent. -/
def lookupRM (rm : RolloverMap) (monthKey catId : String) : Option ℚ :=
  match rm.find? (fun p => p.1 == monthKey) with
  | none => none
  | some p => (p.2.find? (fun q => q.1 == catId)).map (fun q => q.2)

/-! ### Characters, digits and strings -/

/-- Build a string from its characters. -/
def chStr (l : List Char) : String := String.mk l

/-- JS string concatenation `a + b`. -/
def strCat (a b : String) : String := String.mk (a.data ++ b.data)

/-- `pat` is a leading segment of `s` (character lists). -/
def listLeads : List Char → List Char → Bool
  | [], _ => true
  | _ :: _, [] => false
  | p :: ps, c :: cs => p == c && listLeads ps cs

/-- JS `s.startsWith(pat)`. -/
def strLeads (s pat : String) : Bool := listLeads pat.data s.data

/-- Little-endian decimal digits, with a structural fuel argument (any
fuel `≥ n` gives the digits of `n`; called with fuel `n`). -/
def digitsLEAux : Nat → Nat → List Nat
  | 0, _ => []
  | fuel + 1, n => if n = 0 then [] else (n % 10) :: digitsLEAux fuel (n / 10)

/-- Little-endian decimal digits of `n` (`[]` for 0). -/
def digitsLE (n : Nat) : List Nat := digitsLEAux n n

/-- The character of a decimal digit. -/
def digitChar (d : Nat) : Char :=
  if d = 0 then '0' else if d = 1 then '1' else if d = 2 then '2'
  else if d = 3 then '3' else if d = 4 then '4' else if d = 5 then '5'
  else if d = 6 then '6' else if d = 7 then '7' else if d = 8 then '8' else '9'

/-- Decimal characters of `n`, most significant first (`[]` for 0). -/
def natToChars (n : Nat) : List Char := (digitsLE n).reverse.map digitChar

/-- Decimal characters of `n`, rendering 0 as `"0"` (JS `String(n)`). -/
def natToChars0 (n : Nat) : List Char := if n = 0 then ['0'] else natToChars n

/-- Left-pad a character list with `'0'` to width `w`
(JS `String(n).padStart(w, '0')`). -/
def padZeros (w : Nat) (l : List Char) : List Char :=
  List.replicate (w - l.length) '0' ++ l

/-- `n` zero-padded to two decimal characters. -/
def pad2 (n : Nat) : List Char := padZeros 2 (natToChars0 n)

/-- `n` zero-padded to four decimal characters (date-fns `yyyy` token). -/
def pad4 (n : Nat) : List Char := padZeros 4 (natToChars0 n)

/-- The value of a decimal digit character, `none` otherwise. -/
def digitVal (c : Char) : Option Nat :=
  if c.isDigit then some (c.toNat - 48) else none

/-- Characters that can occur in *some* string JS `Number` accepts:
digits; sign, decimal point and exponent markers; the prefixes and
digits of hex/octal/binary literals; the letters of `Infinity`; and the
whitespace `Number` trims (conservatively, every code point ≤ 32 plus
the Unicode space separators, NBSP, LS, PS and the BOM).  A string
containing any character *outside* this set is `NaN` for JS `Number`. -/
def jsNumericChar (c : Char) : Bool :=
  c.isDigit || c == '.' || c == '+' || c == '-' ||
  c == 'e' || c == 'E' || c == 'x' || c == 'X' || c == 'o' || c == 'O' ||
  c == 'b' || c == 'B' || c == 'a' || c == 'A' || c == 'c' || c == 'C' ||
  c == 'd' || c == 'D' || c == 'f' || c == 'F' ||
  c == 'I' || c == 'n' || c == 'i' || c == 't' || c == 'y' ||
  c.toNat ≤ 32 || c.toNat == 160 || c.toNat == 5760 ||
  (8192 ≤ c.toNat && c.toNat ≤ 8202) || c.toNat == 8232 ||
  c.toNat == 8233 || c.toNat == 8239 || c.toNat == 8287 ||
  c.toNat == 12288 || c.toNat == 65279

/-- Accumulating decimal parser over characters. -/
def parseDigitsAux : List Char → Nat → Option Nat
  | [], acc => some acc
  | c :: cs, acc =>
    match digitVal c with
    | none => none
    | some d => parseDigitsAux cs (acc * 10 + d)

/-- JS `Number(s)` on a digits-only string; `Number("") = 0`.  On a
string with a non-digit character the model returns `none`, which
matches JS (`NaN`) when that character is outside `jsNumericChar` (the
only case the theorems below rely on). -/
def parseDigits (l : List Char) : Option Nat := parseDigitsAux l 0

/-- JS `s.split('-')` on character lists. -/
def splitOnDash : List Char → List (List Char)
  | [] => [[]]
  | c :: cs =>
    if c = '-' then [] :: splitOnDash cs
    else
      match splitOnDash cs with
      | [] => [[c]]
      | p :: ps => (c :: p) :: ps

/-- `const [y, m] = monthKey.split('-').map(Number)` — the first two parts
of a month key, as numbers.  Extra parts are ignored (JS destructuring);
a missing or non-numeric part yields `none` (JS `NaN`). -/
def parseYM (s : String) : Option (Nat × Nat) :=
  match splitOnDash s.data with
  | p0 :: p1 :: _ =>
    match parseDigits p0, parseDigits p1 with
    | some y, some m => some (y, m)
    | _, _ => none
  | _ => none

/-- date-fns `format(date, 'yyyy-MM')` for a civil year/month. -/
def renderYM (y m : Nat) : String := chStr (pad4 y ++ '-' :: pad2 m)

/-! ### Calendar arithmetic -/

/-- Proleptic-Gregorian leap year rule (the rule JS `Date` uses). -/
def isLeapYear (y : Nat) : Bool :=
  (y % 4 == 0 && y % 100 != 0) || y % 400 == 0

/-- Days in civil month `m` (1–12) of year `y`. -/
def daysInMonthYM (y m : Nat) : Nat :=
  if m == 2 then (if isLeapYear y then 29 else 28)
  else if m == 4 || m == 6 || m == 9 || m == 11 then 30 else 31

/-- The JS `Date` year rule: constructor year arguments 0–99 denote
1900–1999. -/
def jsYearN (y : Nat) : Nat := if y ≤ 99 then 1900 + y else y

/-- Civil year/month denoted by `new Date(y, m - 1, _)` for a month key
component `m` (a parsed digit string, hence a natural number): month
index `m - 1` out of `0..11` rolls over into adjacent years. -/
def jsMonthStart (y m : Nat) : Nat × Nat :=
  if m = 0 then (jsYearN y - 1, 12)
  else (jsYearN y + (m - 1) / 12, (m - 1) % 12 + 1)

/-- One month earlier (day 1 to day 1), as date-fns `subMonths`. -/
def prevMonthYM (p : Nat × Nat) : Nat × Nat :=
  if p.2 = 1 then (p.1 - 1, 12) else (p.1, p.2 - 1)

/-- One month later (day 1 to day 1), as date-fns `addMonths`. -/
def nextMonthYM (p : Nat × Nat) : Nat × Nat :=
  if p.2 = 12 then (p.1 + 1, 1) else (p.1, p.2 + 1)

/-- `prevMonth` from `helpers.ts`: parse the key, build the first of that
month, subtract one month, format `yyyy-MM`.  `none` models the JS code
throwing on an unparseable key. -/
def prevMonth (s : String) : Option String :=
  match parseYM s with
  | none => none
  | some (y, m) =>
    some (renderYM (prevMonthYM (jsMonthStart y m)).1
      (prevMonthYM (jsMonthStart y m)).2)

/-- `nextMonth` from `helpers.ts`. -/
def nextMonth (s : String) : Option String :=
  match parseYM s with
  | none => none
  | some (y, m) =>
    some (renderYM (nextMonthYM (jsMonthStart y m)).1
      (nextMonthYM (jsMonthStart y m)).2)

/-- Roll an excessive day-of-month forward into later months, as the JS
`Date` constructor does (`new Date(y, m, 40)` …).  The fuel argument
bounds the recursion; `rollUp d (y, m, d)` is enough fuel for day `d`. -/
def rollUp : Nat → Nat × Nat × Nat → Nat × Nat × Nat
  | 0, x => x
  | fuel + 1, (y, m, d) =>
    if d ≤ daysInMonthYM y m then (y, m, d)
    else rollUp fuel (((nextMonthYM (y, m)).1, (nextMonthYM (y, m)).2,
      d - daysInMonthYM y m))

/-- The civil date denoted by `new Date(y, mm - 1, d)` for parsed key
components `y`, `mm`, `d` (all naturals): month and day out of range
roll over into adjacent months/years, and day `0` denotes the last day
of the previous month. -/
def jsMakeDate (y mm d : Nat) : Nat × Nat × Nat :=
  let p := jsMonthStart y mm
  if d = 0 then
    ((prevMonthYM p).1, (prevMonthYM p).2,
      daysInMonthYM (prevMonthYM p).1 (prevMonthYM p).2)
  else rollUp d (p.1, p.2, d)

/-- JS `Date` range check on the resulting year (the exact limit is
±8.64e15 ms from the epoch, i.e. ±273 790 years or so; the model checks
the year, which is exact except within the two boundary years, far
outside anything this app produces). -/
def jsDateYearOk (y : Nat) : Bool := y ≤ 275759

/-- The numeric stage of `parseLocalDate`: convert the three parts with
`Number`, build `new Date(y, m - 1, d)` and reject only an *invalid*
`Date` (out of range); in-range but non-calendrical components simply
roll over.  The result is the civil date of the constructed
local-midnight `Date`. -/
def parseLocalDateParts (p0 p1 p2 : List Char) : Option (Nat × Nat × Nat) :=
  match parseDigits p0, parseDigits p1, parseDigits p2 with
  | some y, some mo, some d =>
    if jsDateYearOk (jsMakeDate y mo d).1 then some (jsMakeDate y mo d)
    else none
  | _, _, _ => none

/-- `parseLocalDate` from `helpers.ts`: split on `'-'`, require exactly
three parts, then parse numerically. -/
def parseLocalDate (s : String) : Option (Nat × Nat × Nat) :=
  match splitOnDash s.data with
  | [p0, p1, p2] => parseLocalDateParts p0 p1 p2
  | _ => none

/-! ### Local midnights rendered in UTC (`toISOString`) -/

/-- The civil components of an instant, in UTC. -/
structure UTCParts where
  year : Nat
  month : Nat
  day : Nat
  hour : Nat
  minute : Nat
deriving DecidableEq, Repr

/-- JS `Date` constructor rule for the day argument `0`: the last day of
the previous month.  Days `≥ 1` are kept (days above the month length do
not occur at the call sites of this model, which clamp with `Math.min`). -/
def dayZeroAdjust (Y M d : Nat) : Nat × Nat × Nat :=
  if d = 0 then
    ((prevMonthYM (Y, M)).1, (prevMonthYM (Y, M)).2,
      daysInMonthYM (prevMonthYM (Y, M)).1 (prevMonthYM (Y, M)).2)
  else (Y, M, d)

/-- UTC components of local midnight on the civil day `q`, in an
environment whose constant UTC offset is `tz` minutes (`|tz| < 1440`):
offsets `≤ 0` keep the civil day, positive offsets move to the end of
the previous day (with month/year rollover). -/
def utcShift (tz : Int) (q : Nat × Nat × Nat) : UTCParts :=
  if tz ≤ 0 then
    ⟨q.1, q.2.1, q.2.2, (-tz).toNat / 60, (-tz).toNat % 60⟩
  else
    if q.2.2 > 1 then
      ⟨q.1, q.2.1, q.2.2 - 1, (1440 - tz).toNat / 60, (1440 - tz).toNat % 60⟩
    else if q.2.1 > 1 then
      ⟨q.1, q.2.1 - 1, daysInMonthYM q.1 (q.2.1 - 1),
        (1440 - tz).toNat / 60, (1440 - tz).toNat % 60⟩
    else
      ⟨q.1 - 1, 12, 31, (1440 - tz).toNat / 60, (1440 - tz).toNat % 60⟩

/-- The UTC components of the instant `new Date(Y, M - 1, d)` (local
midnight on day `d` of civil month `(Y, M)`). -/
def utcOfLocalMidnight (tz : Int) (Y M d : Nat) : UTCParts :=
  utcShift tz (dayZeroAdjust Y M d)

/-- `Date.prototype.toISOString` on a whole-minute instant:
`"YYYY-MM-DDTHH:MM:00.000Z"`. -/
def renderISO (p : UTCParts) : String :=
  chStr (pad4 p.year ++ '-' :: pad2 p.month ++ '-' :: pad2 p.day ++
    'T' :: pad2 p.hour ++ ':' :: pad2 p.minute ++ ":00.000Z".data)

/-- Minutes past local midnight of an instant given by UTC components,
in an environment with constant UTC offset `tz` minutes. -/
def localMinutes (tz : Int) (p : UTCParts) : Int :=
  (p.hour : Int) * 60 + (p.minute : Int) + tz

/-- The local civil date of an instant given by UTC components, in an
environment with constant UTC offset `tz` minutes (`|tz| < 1440`). -/
def localCivilOfUTC (tz : Int) (p : UTCParts) : Nat × Nat × Nat :=
  if localMinutes tz p < 0 then
    (if p.day > 1 then (p.year, p.month, p.day - 1)
     else if p.month > 1 then
       (p.year, p.month - 1, daysInMonthYM p.year (p.month - 1))
     else (p.year - 1, 12, 31))
  else if localMinutes tz p < 1440 then (p.year, p.month, p.day)
  else
    (if p.day < daysInMonthYM p.year p.month then (p.year, p.month, p.day + 1)
     else ((nextMonthYM (p.year, p.month)).1, (nextMonthYM (p.year, p.month)).2, 1))

/-! ### Aggregation (`expensesForMonth`, `totalByCategory`, `totalSpent`) -/

/-- `expensesForMonth` from `helpers.ts`:
`expenses.filter(e => e.date.startsWith(month))`. -/
def expensesForMonth (expenses : List Expense) (month : String) : List Expense :=
  expenses.filter (fun e => strLeads e.date month)

/-- One step of the `totalByCategory` reduce:
`acc[k] = (acc[k] || 0) + a`, preserving JS object insertion order. -/
def bumpCat (acc : List (String × ℚ)) (k : String) (a : ℚ) : List (String × ℚ) :=
  match acc with
  | [] => [(k, a)]
  | (k1, v) :: rest =>
    if k1 == k then (k1, v + a) :: rest else (k1, v) :: bumpCat rest k a

/-- `totalByCategory` from `helpers.ts`, as the insertion-ordered
association list the JS object reduce builds. -/
def totalByCategory (expenses : List Expense) : List (String × ℚ) :=
  expenses.foldl (fun acc e => bumpCat acc e.categoryId e.amount) []

/-- The sum of the values of a `totalByCategory` result. -/
def sumValues (l : List (String × ℚ)) : ℚ := (l.map (fun p => p.2)).sum

/-- `totalSpent` from `helpers.ts`:
`expenses.reduce((sum, e) => sum + e.amount, 0)`. -/
def totalSpent (expenses : List Expense) : ℚ :=
  expenses.foldl (fun sum e => sum + e.amount) 0

/-! ### Recurring expense generation -/

/-- The existence-check predicate of `generateRecurringForMonth`:
`e.isRecurring && e.categoryId === tmpl.categoryId && e.note === tmpl.note
&& e.amount === tmpl.amount`. -/
def matchesTemplate (tmpl e : Expense) : Bool :=
  e.isRecurring && e.categoryId == tmpl.categoryId &&
    e.note == tmpl.note && e.amount == tmpl.amount

/-- The template filter of `generateRecurringForMonth`:
`e.isRecurring && e.recurringDayOfMonth != null`. -/
def isTemplate (e : Expense) : Bool :=
  e.isRecurring && e.recurringDayOfMonth.isSome

/-- The entry `generateRecurringForMonth` pushes for a template:
`{...tmpl, id: tmpl.id + "_" + monthKey,
date: new Date(y, m - 1, day).toISOString()}` with
`day = Math.min(tmpl.recurringDayOfMonth, daysInMonth)`.
`Y, M` are the civil year/month of the target (already normalized),
`dim` its day count. -/
def genEntry (tz : Int) (Y M dim : Nat) (monthKey : String) (tmpl : Expense) :
    Expense :=
  { tmpl with
    id := strCat (strCat tmpl.id "_") monthKey,
    date := renderISO (utcOfLocalMidnight tz Y M
      (min (tmpl.recurringDayOfMonth.getD 0) dim)) }

/-- The loop body of `generateRecurringForMonth` for one template:
`none` when the existence check fires, otherwise the pushed entry. -/
def genStep (tz : Int) (Y M dim : Nat) (monthKey : String)
    (monthExpenses : List Expense) (tmpl : Expense) : Option Expense :=
  if monthExpenses.any (matchesTemplate tmpl) then none
  else some (genEntry tz Y M dim monthKey tmpl)

/-- `generateRecurringForMonth` from `helpers.ts`.  `none` models the JS
code failing on an unparseable month key. -/
def generateRecurringForMonth (tz : Int) (allExpenses : List Expense)
    (monthKey : String) : Option (List Expense) :=
  match parseYM monthKey with
  | none => none
  | some (y, m) =>
    some ((allExpenses.filter isTemplate).filterMap
      (genStep tz (jsMonthStart y m).1 (jsMonthStart y m).2
        (daysInMonthYM (jsMonthStart y m).1 (jsMonthStart y m).2)
        monthKey (expensesForMonth allExpenses monthKey)))

/-! ### Rollover -/

/-- `computeRollover` from `helpers.ts`. -/
def computeRollover (cat : Category) (prevMonthKey : String)
    (allExpenses : List Expense) (rollovers : RolloverMap) : ℚ :=
  if !cat.rollover || cat.budget == 0 then 0
  else
    match lookupRM rollovers prevMonthKey cat.id with
    | some v => v
    | none =>
      max (cat.budget -
        ((expensesForMonth allExpenses prevMonthKey).filter
          (fun e => e.categoryId == cat.id)).foldl (fun s e => s + e.amount) 0) 0

/-! ### CSV export -/

/-- JS `(n).toFixed(2)`: round `q` to the nearest hundredth (ties up, the
ES "pick the larger n" rule) and render with exactly two digits after
the decimal point, a leading `-` for negative results. -/
def toFixed2 (q : ℚ) : String :=
  if ⌊q * 100 + 1 / 2⌋ < 0 then
    chStr ('-' :: (natToChars0 ((⌊q * 100 + 1 / 2⌋).natAbs / 100) ++
      '.' :: pad2 ((⌊q * 100 + 1 / 2⌋).natAbs % 100)))
  else
    chStr (natToChars0 ((⌊q * 100 + 1 / 2⌋).toNat / 100) ++
      '.' :: pad2 ((⌊q * 100 + 1 / 2⌋).toNat % 100))

/-- JS `s.replace(/"/g, '""')`: double every double quote. -/
def escapeQuotes (s : String) : String :=
  chStr (s.data.flatMap (fun c => if c = '"' then ['"', '"'] else [c]))

/-- Number of double-quote characters in a string. -/
def quoteCount (s : String) : Nat := s.data.countP (fun c => c == '"')

/-- The CSV note field: `'"' + (e.note || '').replace(/"/g, '""') + '"'`. -/
def noteField (s : String) : String :=
  strCat (strCat "\"" (escapeQuotes s)) "\""

/-- The category map of `buildCSV` (`catMap[c.id] = c` over `forEach`, so
the *last* category with a given id wins), looked up at `cid`. -/
def lookupCatLast (categories : List Category) (cid : String) : Option Category :=
  categories.foldl (fun acc c => if c.id == cid then some c else acc) none

/-- The CSV category field: `cat?.name ?? 'Unknown'`. -/
def catNameField (categories : List Category) (cid : String) : String :=
  match lookupCatLast categories cid with
  | some c => c.name
  | none => "Unknown"

/-- Days from the Unix epoch of a civil date (years ≥ 1; the standard
era-based Gregorian conversion). -/
def daysFromCivil (y m d : Nat) : Int :=
  ((if m ≤ 2 then y - 1 else y) / 400 * 146097 +
    ((if m ≤ 2 then y - 1 else y) % 400 * 365 +
      (if m ≤ 2 then y - 1 else y) % 400 / 4 -
      (if m ≤ 2 then y - 1 else y) % 400 / 100 +
      ((153 * (if m > 2 then m - 3 else m + 9) + 2) / 5 + d - 1)) : Nat) -
    (719468 : Int)

/-- Civil date of a day count from the Unix epoch (for days ≥ March of
year 0, which covers every date this model constructs). -/
def civilFromDays (z : Int) : Nat × Nat × Nat :=
  let z1 : Nat := (z + 719468).toNat
  let era : Nat := z1 / 146097
  let doe : Nat := z1 % 146097
  let yoe : Nat := (doe - doe / 1460 + doe / 36524 - doe / 146096) / 365
  let doy : Nat := doe - (365 * yoe + yoe / 4 - yoe / 100)
  let mp : Nat := (5 * doy + 2) / 153
  let d : Nat := doy - (153 * mp + 2) / 5 + 1
  let m : Nat := if mp < 10 then mp + 3 else mp - 9
  (if m ≤ 2 then era * 400 + yoe + 1 else era * 400 + yoe, m, d)

/-- JS `new Date(s).getTime()` on a canonical ISO-8601 UTC timestamp
`"YYYY-MM-DDTHH:MM:SS.mmmZ"` (the only date format this app stores):
epoch milliseconds, or `none` (`NaN`) when the string does not have that
shape or its fields are not a valid calendar date and time of day. -/
def getTimeISO (s : String) : Option Int :=
  match s.data with
  | [y1, y2, y3, y4, '-', m1, m2, '-', d1, d2, 'T',
     h1, h2, ':', i1, i2, ':', s1, s2, '.', f1, f2, f3, 'Z'] =>
    match parseDigits [y1, y2, y3, y4], parseDigits [m1, m2],
        parseDigits [d1, d2], parseDigits [h1, h2], parseDigits [i1, i2],
        parseDigits [s1, s2], parseDigits [f1, f2, f3] with
    | some y, some mo, some d, some h, some mi, some se, some ms =>
      if 1 ≤ mo && mo ≤ 12 && 1 ≤ d && d ≤ daysInMonthYM y mo &&
          h ≤ 23 && mi ≤ 59 && se ≤ 59 then
        some (daysFromCivil y mo d * 86400000 + h * 3600000 + mi * 60000 +
          se * 1000 + ms)
      else none
    | _, _, _, _, _, _, _ => none
  | _ => none

/-- The sort key of `buildCSV` (`new Date(e.date).getTime()`); an
unparseable date gives `NaN`, whose comparator behaviour is
unspecified — modelled as key `0`. -/
def sortKeyD (e : Expense) : Int := (getTimeISO e.date).getD 0

/-- date-fns `format(new Date(e.date), 'yyyy-MM-dd')`: the *local* civil
date of the instant, in an environment with UTC offset `tz` minutes. -/
def csvDateStr (tz : Int) (t : Int) : String :=
  chStr (pad4 (civilFromDays ((t + tz * 60000).fdiv 86400000)).1 ++
    '-' :: pad2 (civilFromDays ((t + tz * 60000).fdiv 86400000)).2.1 ++
    '-' :: pad2 (civilFromDays ((t + tz * 60000).fdiv 86400000)).2.2)

/-- One CSV row; `none` models date-fns `format` throwing on an
`Invalid Date`. -/
def csvRowOf (tz : Int) (categories : List Category) (currency : String)
    (e : Expense) : Option String :=
  (getTimeISO e.date).map (fun t =>
    String.intercalate "," [csvDateStr tz t, catNameField categories e.categoryId,
      toFixed2 e.amount, currency, noteField e.note,
      if e.isRecurring then "yes" else "no"])

/-- Monadic map over `Option`, by structural recursion (used to thread
the per-row failure case of `buildCSV`). -/
def optionMapList (f : α → Option β) : List α → Option (List β)
  | [] => some []
  | a :: l =>
    match f a, optionMapList f l with
    | some b, some bs => some (b :: bs)
    | _, _ => none

/-- The `buildCSV` comparator, `(a, b) => getTime(a) - getTime(b)`
ascending, as a boolean order. -/
def dateLE (a b : Expense) : Bool := decide (sortKeyD a ≤ sortKeyD b)

/-- `buildCSV` from `helpers.ts`: header, then one row per expense in
ascending date order (JS `sort` is stable; modelled by `mergeSort`),
joined with `"\n"`.  `none` models the JS code throwing on an expense
whose date cannot be parsed. -/
def buildCSV (tz : Int) (expenses : List Expense) (categories : List Category)
    (currency : String) : Option String :=
  (optionMapList (csvRowOf tz categories currency)
      (expenses.mergeSort dateLE)).map
    (fun rows => String.intercalate "\n"
      ("Date,Category,Amount,Currency,Note,Recurring" :: rows))

/-- `effectiveBudget` from the context provider (`BudgetContext`):
`if (!cat || cat.budget === 0) return 0;
return cat.budget + computeRollover(cat, prev, expenses, rollovers)`.
The previous-month key (`prevMonth(currentMonth())` in the source, a
function of the wall clock) is passed explicitly. -/
def effectiveBudget (categories : List Category) (expenses : List Expense)
    (rollovers : RolloverMap) (prevKey : String) (catId : String) : ℚ :=
  match categories.find? (fun c => c.id == catId) with
  | none => 0
  | some cat =>
    if cat.budget == 0 then 0
    else cat.budget + computeRollover cat prevKey expenses rollovers

/-! ### Lemmas: decimal digits and key parsing -/

theorem digitsLEAux_congr : ∀ f1 n, n ≤ f1 → ∀ f2, n ≤ f2 →
    digitsLEAux f1 n = digitsLEAux f2 n := by
  intro f1
  induction f1 with
  | zero =>
    intro n h f2 h2
    have hn : n = 0 := by omega
    subst hn
    cases f2 <;> simp [digitsLEAux]
  | succ f ih =>
    intro n h f2 h2
    cases f2 with
    | zero =>
      have hn : n = 0 := by omega
      subst hn
      simp [digitsLEAux]
    | succ g =>
      unfold digitsLEAux
      by_cases hn : n = 0
      · rw [if_pos hn, if_pos hn]
      · rw [if_neg hn, if_neg hn]
        have hlt : n / 10 < n := Nat.div_lt_self (Nat.pos_of_ne_zero hn) (by omega)
        congr 1
        exact ih (n / 10) (by omega) g (by omega)

theorem digitsLE_eq (n : Nat) :
    digitsLE n = if n = 0 then [] else (n % 10) :: digitsLE (n / 10) := by
  cases n with
  | zero => rfl
  | succ k =>
    rw [if_neg (by omega)]
    show digitsLEAux (k + 1) (k + 1) = (k + 1) % 10 :: digitsLE ((k + 1) / 10)
    conv_lhs => unfold digitsLEAux
    rw [if_neg (by omega)]
    have hlt : (k + 1) / 10 < k + 1 := Nat.div_lt_self (by omega) (by omega)
    congr 1
    show digitsLEAux k ((k + 1) / 10) = digitsLEAux ((k + 1) / 10) ((k + 1) / 10)
    exact digitsLEAux_congr k ((k + 1) / 10) (by omega) ((k + 1) / 10) (by omega)

theorem digitVal_digitChar (d : Nat) (h : d ≤ 9) :
    digitVal (digitChar d) = some d := by
  unfold digitChar
  repeat' split
  all_goals try (rename_i hE; subst hE; decide)
  have h9 : d = 9 := by omega
  subst h9; decide

theorem digitChar_isDigit (d : Nat) : (digitChar d).isDigit = true := by
  unfold digitChar
  repeat' split
  all_goals decide

theorem digitChar_ne_dash (d : Nat) : digitChar d ≠ '-' := by
  unfold digitChar
  repeat' split
  all_goals decide

theorem digitsLE_lt_ten (n : Nat) : ∀ x ∈ digitsLE n, x < 10 := by
  induction n using Nat.strong_induction_on with
  | _ n ih =>
    rw [digitsLE_eq]
    split
    · simp
    · rename_i h
      intro x hx
      rcases List.mem_cons.1 hx with h1 | h1
      · subst h1; exact Nat.mod_lt _ (by omega)
      · exact ih (n / 10) (Nat.div_lt_self (Nat.pos_of_ne_zero h) (by omega)) x h1

theorem parseDigitsAux_map_digitChar (ds : List Nat) (hd : ∀ x ∈ ds, x < 10) :
    ∀ acc, parseDigitsAux (ds.map digitChar) acc =
      some (ds.foldl (fun a d => a * 10 + d) acc) := by
  induction ds with
  | nil => intro acc; rfl
  | cons d ds ih =>
    intro acc
    have hd9 : d ≤ 9 := by have := hd d (by simp); omega
    simp only [List.map_cons, parseDigitsAux, digitVal_digitChar d hd9,
      List.foldl_cons]
    exact ih (fun x hx => hd x (by simp [hx])) _

theorem foldl_digitsLE_reverse (n : Nat) :
    ∀ acc, (digitsLE n).reverse.foldl (fun a d => a * 10 + d) acc =
      acc * 10 ^ (digitsLE n).length + n := by
  induction n using Nat.strong_induction_on with
  | _ n ih =>
    intro acc
    rw [digitsLE_eq]
    split
    · rename_i h; subst h; simp
    · rename_i h
      simp only [List.reverse_cons, List.foldl_append, List.foldl_cons,
        List.foldl_nil, List.length_cons]
      rw [ih (n / 10) (Nat.div_lt_self (Nat.pos_of_ne_zero h) (by omega))]
      have : n / 10 * 10 + n % 10 = n := by omega
      ring_nf
      omega

theorem parseDigits_natToChars0 (n : Nat) : parseDigits (natToChars0 n) = some n := by
  unfold natToChars0
  split
  · rename_i h; subst h; decide
  · unfold natToChars parseDigits
    have hd : ∀ x ∈ (digitsLE n).reverse, x < 10 := by
      intro x hx; exact digitsLE_lt_ten n x (List.mem_reverse.1 hx)
    rw [parseDigitsAux_map_digitChar _ hd 0, foldl_digitsLE_reverse n 0]
    simp

theorem parseDigitsAux_replicate_zero (k : Nat) :
    parseDigitsAux (List.replicate k '0') 0 = some 0 := by
  induction k with
  | zero => rfl
  | succ k ih => simpa [List.replicate_succ, parseDigitsAux, digitVal] using ih

theorem parseDigitsAux_append (l1 l2 : List Char) :
    ∀ acc, parseDigitsAux (l1 ++ l2) acc =
      match parseDigitsAux l1 acc with
      | none => none
      | some b => parseDigitsAux l2 b := by
  induction l1 with
  | nil => intro acc; rfl
  | cons c cs ih =>
    intro acc
    simp only [List.cons_append, parseDigitsAux]
    cases digitVal c with
    | none => rfl
    | some d => exact ih _

theorem parseDigits_padZeros (w n : Nat) :
    parseDigits (padZeros w (natToChars0 n)) = some n := by
  unfold padZeros parseDigits
  rw [parseDigitsAux_append]
  rw [parseDigitsAux_replicate_zero]
  exact parseDigits_natToChars0 n

theorem mem_natToChars0_isDigit (n : Nat) :
    ∀ c ∈ natToChars0 n, c.isDigit = true := by
  unfold natToChars0
  split
  · intro c hc; simp at hc; subst hc; decide
  · intro c hc
    unfold natToChars at hc
    rcases List.mem_map.1 hc with ⟨d, _, rfl⟩
    exact digitChar_isDigit d

theorem mem_padZeros_isDigit (w n : Nat) :
    ∀ c ∈ padZeros w (natToChars0 n), c.isDigit = true := by
  intro c hc
  rcases List.mem_append.1 hc with h | h
  · have := List.eq_of_mem_replicate h; subst this; decide
  · exact mem_natToChars0_isDigit n c h

theorem dash_not_mem_padZeros (w n : Nat) : '-' ∉ padZeros w (natToChars0 n) := by
  intro hc
  have := mem_padZeros_isDigit w n '-' hc
  simp [Char.isDigit] at this

theorem splitOnDash_ne_nil (l : List Char) : splitOnDash l ≠ [] := by
  cases l with
  | nil => simp [splitOnDash]
  | cons c cs =>
    unfold splitOnDash
    split
    · simp
    · split <;> simp

theorem splitOnDash_no_dash (l : List Char) (h : '-' ∉ l) :
    splitOnDash l = [l] := by
  induction l with
  | nil => rfl
  | cons c cs ih =>
    unfold splitOnDash
    have hc : ¬ c = '-' := fun hh => h (by simp [hh])
    rw [if_neg hc]
    rw [ih (fun hh => h (by simp [hh]))]

theorem splitOnDash_append (a b : List Char) (h : '-' ∉ a) :
    splitOnDash (a ++ '-' :: b) = a :: splitOnDash b := by
  induction a with
  | nil => simp [splitOnDash]
  | cons c cs ih =>
    have hc : ¬ c = '-' := fun hh => h (by simp [hh])
    rw [List.cons_append]
    conv_lhs => rw [splitOnDash]
    rw [if_neg hc]
    rw [ih (fun hh => h (by simp [hh]))]

theorem parseYM_renderYM (y m : Nat) : parseYM (renderYM y m) = some (y, m) := by
  unfold parseYM
  have hd : (renderYM y m).data =
      padZeros 4 (natToChars0 y) ++ '-' :: padZeros 2 (natToChars0 m) := rfl
  rw [hd, splitOnDash_append _ _ (dash_not_mem_padZeros 4 y),
    splitOnDash_no_dash _ (dash_not_mem_padZeros 2 m)]
  simp [parseDigits_padZeros]

/-! ### Lemmas: calendar -/

theorem daysInMonthYM_pos (y m : Nat) : 28 ≤ daysInMonthYM y m := by
  unfold daysInMonthYM
  repeat' split
  all_goals omega

theorem daysInMonthYM_le (y m : Nat) : daysInMonthYM y m ≤ 31 := by
  unfold daysInMonthYM
  repeat' split
  all_goals omega

theorem jsYearN_of_ge (y : Nat) (h : 100 ≤ y) : jsYearN y = y := by
  unfold jsYearN
  rw [if_neg (by omega)]

theorem jsMonthStart_id (y m : Nat) (h1 : 1 ≤ m) (h2 : m ≤ 12) (hy : 100 ≤ y) :
    jsMonthStart y m = (y, m) := by
  unfold jsMonthStart
  rw [if_neg (by omega), jsYearN_of_ge y hy]
  have ha : (m - 1) / 12 = 0 := Nat.div_eq_of_lt (by omega)
  have hb : (m - 1) % 12 = m - 1 := Nat.mod_eq_of_lt (by omega)
  rw [ha, hb]
  simp
  omega

theorem daysInMonthYM_december (y : Nat) : daysInMonthYM y 12 = 31 := rfl

theorem dayZeroAdjust_pos (Y M d : Nat) (h : 1 ≤ d) :
    dayZeroAdjust Y M d = (Y, M, d) := by
  unfold dayZeroAdjust
  rw [if_neg (by omega)]

theorem localMinutes_utcShift_nonpos (tz : Int) (q : Nat × Nat × Nat)
    (htz : tz ≤ 0) (h2 : -1439 ≤ tz) :
    localMinutes tz (utcShift tz q) = 0 ∧
      utcShift tz q = ⟨q.1, q.2.1, q.2.2, (-tz).toNat / 60, (-tz).toNat % 60⟩ := by
  unfold utcShift
  rw [if_pos htz]
  refine ⟨?_, rfl⟩
  unfold localMinutes
  have h1 : ((-tz).toNat : Int) = -tz := Int.toNat_of_nonneg (by omega)
  have h3 : ((-tz).toNat / 60) * 60 + (-tz).toNat % 60 = (-tz).toNat :=
    Nat.div_add_mod' _ _
  simp only
  omega

theorem localMinutes_eq_1440 (tz : Int) (htz : 0 < tz) (htz2 : tz ≤ 1439)
    (y2 m2 d2 : Nat) :
    localMinutes tz ⟨y2, m2, d2, (1440 - tz).toNat / 60, (1440 - tz).toNat % 60⟩
      = 1440 := by
  unfold localMinutes
  have h1 : ((1440 - tz).toNat : Int) = 1440 - tz := Int.toNat_of_nonneg (by omega)
  have h3 : ((1440 - tz).toNat / 60) * 60 + (1440 - tz).toNat % 60 =
    (1440 - tz).toNat := Nat.div_add_mod' _ _
  simp only
  omega

/-- Local midnight of a valid civil day, rendered in UTC and read back in
local time, is the same civil day: the `toISOString` timestamp of
`new Date(Y, M-1, d)` denotes (local) day `d` of month `(Y, M)`. -/
theorem localCivil_utcOfLocalMidnight (tz : Int) (Y M d : Nat)
    (htz1 : -1439 ≤ tz) (htz2 : tz ≤ 1439) (hM1 : 1 ≤ M) (hM2 : M ≤ 12)
    (hd1 : 1 ≤ d) (hd2 : d ≤ daysInMonthYM Y M) (hY : 1 ≤ Y) :
    localCivilOfUTC tz (utcOfLocalMidnight tz Y M d) = (Y, M, d) := by
  unfold utcOfLocalMidnight
  rw [dayZeroAdjust_pos Y M d hd1]
  by_cases htz : tz ≤ 0
  · rcases localMinutes_utcShift_nonpos tz (Y, M, d) htz htz1 with ⟨hm, hq⟩
    unfold localCivilOfUTC
    rw [hm] at *
    rw [if_neg (by omega), if_pos (by omega), hq]
  · have htzp : 0 < tz := by omega
    have hu : utcShift tz (Y, M, d) =
        if d > 1 then
          ⟨Y, M, d - 1, (1440 - tz).toNat / 60, (1440 - tz).toNat % 60⟩
        else if M > 1 then
          ⟨Y, M - 1, daysInMonthYM Y (M - 1), (1440 - tz).toNat / 60,
            (1440 - tz).toNat % 60⟩
        else
          ⟨Y - 1, 12, 31, (1440 - tz).toNat / 60, (1440 - tz).toNat % 60⟩ := by
      unfold utcShift
      rw [if_neg htz]
    have hloc : ∀ y2 m2 d2 : Nat, localCivilOfUTC tz
        ⟨y2, m2, d2, (1440 - tz).toNat / 60, (1440 - tz).toNat % 60⟩ =
        if d2 < daysInMonthYM y2 m2 then (y2, m2, d2 + 1)
        else ((nextMonthYM (y2, m2)).1, (nextMonthYM (y2, m2)).2, 1) := by
      intro y2 m2 d2
      unfold localCivilOfUTC
      rw [localMinutes_eq_1440 tz htzp htz2 _ _ _]
      rw [if_neg (by omega), if_neg (by omega)]
    by_cases hdd : d > 1
    · rw [hu, if_pos hdd, hloc, if_pos (by omega)]
      have hde : d - 1 + 1 = d := by omega
      rw [hde]
    · have hde : d = 1 := by omega
      subst hde
      rw [hu, if_neg hdd]
      by_cases hMM : M > 1
      · rw [if_pos hMM, hloc, if_neg (by omega)]
        unfold nextMonthYM
        rw [if_neg (by simp only; omega)]
        have hMe : M - 1 + 1 = M := by omega
        simp only [hMe]
      · have hMe : M = 1 := by omega
        subst hMe
        rw [if_neg hMM, hloc]
        rw [daysInMonthYM_december, if_neg (by omega)]
        unfold nextMonthYM
        rw [if_pos (by simp only)]
        have hYe : Y - 1 + 1 = Y := by omega
        simp only [hYe]

/-! ### Lemmas: strings -/

theorem strCat_data (a b : String) : (strCat a b).data = a.data ++ b.data := rfl

theorem strCat_right_cancel (a b c : String) (h : strCat a c = strCat b c) :
    a = b := by
  have hd : a.data ++ c.data = b.data ++ c.data := congrArg String.data h
  have := List.append_cancel_right hd
  cases a; cases b; exact congrArg String.mk this

theorem listLeads_append_self (a b : List Char) : listLeads a (a ++ b) = true := by
  induction a with
  | nil => rfl
  | cons c cs ih => simp [listLeads, ih]

/-! ### Lemmas: aggregation -/

theorem foldl_add_amount (l : List Expense) :
    ∀ s : ℚ, l.foldl (fun s e => s + e.amount) s =
      s + (l.map (fun e => e.amount)).sum := by
  induction l with
  | nil => intro s; simp
  | cons e l ih =>
    intro s
    simp only [List.foldl_cons, List.map_cons, List.sum_cons, ih]
    ring

theorem sumValues_bumpCat (acc : List (String × ℚ)) (k : String) (a : ℚ) :
    sumValues (bumpCat acc k a) = sumValues acc + a := by
  induction acc with
  | nil => simp [bumpCat, sumValues]
  | cons p rest ih =>
    obtain ⟨k1, v⟩ := p
    unfold bumpCat
    by_cases hk : (k1 == k) = true
    · rw [if_pos hk]
      simp only [sumValues, List.map_cons, List.sum_cons]
      ring
    · rw [if_neg hk]
      simp only [sumValues, List.map_cons, List.sum_cons] at ih ⊢
      rw [ih]
      ring

theorem sumValues_foldl_bump (l : List Expense) :
    ∀ acc, sumValues (l.foldl (fun acc e => bumpCat acc e.categoryId e.amount) acc)
      = sumValues acc + (l.map (fun e => e.amount)).sum := by
  induction l with
  | nil => intro acc; simp
  | cons e l ih =>
    intro acc
    simp only [List.foldl_cons, List.map_cons, List.sum_cons, ih,
      sumValues_bumpCat]
    ring

/-! ### Lemmas: decimal rendering widths and quoting -/

theorem digitsLE_length_le (k : Nat) :
    ∀ n, n < 10 ^ k → (digitsLE n).length ≤ k := by
  induction k with
  | zero =>
    intro n hn
    have : n = 0 := by simpa using hn
    subst this
    decide
  | succ k ih =>
    intro n hn
    rw [digitsLE_eq]
    split
    · simp
    · rename_i h
      simp only [List.length_cons]
      have hlt : n / 10 < 10 ^ k := by
        have := Nat.pow_succ 10 k
        omega
      have := ih (n / 10) hlt
      omega

theorem natToChars0_length_le_two (n : Nat) (h : n ≤ 99) :
    (natToChars0 n).length ≤ 2 := by
  unfold natToChars0
  split
  · simp
  · unfold natToChars
    rw [List.length_map, List.length_reverse]
    exact digitsLE_length_le 2 n (by omega)

theorem pad2_length (n : Nat) (h : n ≤ 99) : (pad2 n).length = 2 := by
  unfold pad2 padZeros
  rw [List.length_append, List.length_replicate]
  have := natToChars0_length_le_two n h
  omega

theorem countP_quote_escapeQuotes (s : String) :
    (escapeQuotes s).data.countP (fun c => c == '"') =
      2 * s.data.countP (fun c => c == '"') := by
  show (s.data.flatMap (fun c => if c = '"' then ['"', '"'] else [c])).countP _ = _
  induction s.data with
  | nil => rfl
  | cons c cs ih =>
    rw [List.flatMap_cons, List.countP_append, List.countP_cons, ih]
    by_cases hc : c = '"'
    · rw [if_pos hc]
      subst hc
      simp [List.countP_cons]
      ring
    · rw [if_neg hc]
      have : (c == '"') = false := by simpa using hc
      simp [List.countP_cons, this]

theorem quoteCount_escapeQuotes (s : String) :
    quoteCount (escapeQuotes s) = 2 * quoteCount s :=
  countP_quote_escapeQuotes s

theorem escapeQuotes_empty : escapeQuotes "" = "" := rfl

theorem toFixed2_decomposition (q : ℚ) :
    ∃ pre frac : String, toFixed2 q = strCat (strCat pre ".") frac ∧
      frac.data.length = 2 ∧ (∀ c ∈ frac.data, c.isDigit = true) := by
  unfold toFixed2
  split
  · refine ⟨chStr ('-' :: natToChars0 ((⌊q * 100 + 1 / 2⌋).natAbs / 100)),
      chStr (pad2 ((⌊q * 100 + 1 / 2⌋).natAbs % 100)), ?_, ?_, ?_⟩
    · apply congrArg String.mk
      simp [strCat, chStr]
    · exact pad2_length _ (by omega)
    · intro c hc
      exact mem_padZeros_isDigit 2 _ c hc
  · refine ⟨chStr (natToChars0 ((⌊q * 100 + 1 / 2⌋).toNat / 100)),
      chStr (pad2 ((⌊q * 100 + 1 / 2⌋).toNat % 100)), ?_, ?_, ?_⟩
    · apply congrArg String.mk
      simp [strCat, chStr]
    · exact pad2_length _ (by omega)
    · intro c hc
      exact mem_padZeros_isDigit 2 _ c hc

/-! ### Lemmas: Option-valued mapping and the CSV comparator -/

theorem optionMapList_eq_map (f : α → Option β) (g : α → β) (l : List α)
    (h : ∀ a ∈ l, f a = some (g a)) : optionMapList f l = some (l.map g) := by
  induction l with
  | nil => rfl
  | cons a l ih =>
    unfold optionMapList
    rw [h a (by simp), ih (fun x hx => h x (by simp [hx]))]
    rfl

theorem dateLE_trans (a b c : Expense) (h1 : dateLE a b = true)
    (h2 : dateLE b c = true) : dateLE a c = true := by
  unfold dateLE at *
  simp only [decide_eq_true_eq] at *
  omega

theorem dateLE_total (a b : Expense) : (dateLE a b || dateLE b a) = true := by
  unfold dateLE
  simp only [Bool.or_eq_true, decide_eq_true_eq]
  omega

/-! ### Lemmas: recurring generation -/

theorem generateRecurring_eq (tz : Int) (E : List Expense) (mk : String)
    (y mm : Nat) (hp : parseYM mk = some (y, mm)) (h1 : 1 ≤ mm) (h2 : mm ≤ 12)
    (hy : 100 ≤ y) :
    generateRecurringForMonth tz E mk = some ((E.filter isTemplate).filterMap
      (genStep tz y mm (daysInMonthYM y mm) mk (expensesForMonth E mk))) := by
  unfold generateRecurringForMonth
  rw [hp]
  simp only [jsMonthStart_id y mm h1 h2 hy]

theorem genStep_of_any (tz : Int) (Y M dim : Nat) (mk : String)
    (monthExp : List Expense) (t : Expense)
    (h : monthExp.any (matchesTemplate t) = true) :
    genStep tz Y M dim mk monthExp t = none := by
  unfold genStep
  rw [if_pos h]

theorem genStep_of_not_any (tz : Int) (Y M dim : Nat) (mk : String)
    (monthExp : List Expense) (t : Expense)
    (h : monthExp.any (matchesTemplate t) = false) :
    genStep tz Y M dim mk monthExp t = some (genEntry tz Y M dim mk t) := by
  unfold genStep
  rw [if_neg (by rw [h]; simp)]

theorem genStep_some_eq (tz : Int) (Y M dim : Nat) (mk : String)
    (monthExp : List Expense) (t e : Expense)
    (h : genStep tz Y M dim mk monthExp t = some e) :
    e = genEntry tz Y M dim mk t := by
  unfold genStep at h
  by_cases ha : monthExp.any (matchesTemplate t) = true
  · rw [if_pos ha] at h; cases h
  · rw [if_neg ha] at h; cases h; rfl

theorem genEntry_isRecurring (tz : Int) (Y M dim : Nat) (mk : String)
    (t : Expense) : (genEntry tz Y M dim mk t).isRecurring = t.isRecurring := rfl

theorem genEntry_id (tz : Int) (Y M dim : Nat) (mk : String) (t : Expense) :
    (genEntry tz Y M dim mk t).id = strCat (strCat t.id "_") mk := rfl

theorem matchesTemplate_self (t : Expense) (h : t.isRecurring = true) :
    matchesTemplate t t = true := by
  unfold matchesTemplate
  simp [h]

theorem matchesTemplate_genEntry (tz : Int) (Y M dim : Nat) (mk : String)
    (t : Expense) (h : t.isRecurring = true) :
    matchesTemplate t (genEntry tz Y M dim mk t) = true := by
  unfold matchesTemplate genEntry
  simp [h]

theorem isTemplate_isRecurring (t : Expense) (h : isTemplate t = true) :
    t.isRecurring = true := by
  unfold isTemplate at h
  simp only [Bool.and_eq_true] at h
  exact h.1

/-- A generated entry's ISO date string starts with the (canonical) month
key when the environment offset is `≤ 0` and the instance day is `≥ 1`. -/
theorem strLeads_genEntry_date (tz : Int) (y mm dim : Nat) (mk : String)
    (t : Expense) (htz : tz ≤ 0) (hk : renderYM y mm = mk)
    (hd : 1 ≤ min (t.recurringDayOfMonth.getD 0) dim) :
    strLeads (genEntry tz y mm dim mk t).date mk = true := by
  have hdate : (genEntry tz y mm dim mk t).date =
      renderISO (utcOfLocalMidnight tz y mm
        (min (t.recurringDayOfMonth.getD 0) dim)) := rfl
  have hu : utcOfLocalMidnight tz y mm (min (t.recurringDayOfMonth.getD 0) dim) =
      ⟨y, mm, min (t.recurringDayOfMonth.getD 0) dim,
        (-tz).toNat / 60, (-tz).toNat % 60⟩ := by
    unfold utcOfLocalMidnight
    rw [dayZeroAdjust_pos _ _ _ hd]
    unfold utcShift
    rw [if_pos htz]
  rw [hdate, hu]
  subst hk
  unfold strLeads renderISO renderYM chStr
  show listLeads (pad4 y ++ '-' :: pad2 mm) _ = true
  have hassoc : pad4 y ++ '-' :: pad2 mm ++
        '-' :: pad2 (min (t.recurringDayOfMonth.getD 0) dim) ++
        'T' :: pad2 ((-tz).toNat / 60) ++ ':' :: pad2 ((-tz).toNat % 60) ++
        ":00.000Z".data =
      (pad4 y ++ '-' :: pad2 mm) ++
        ('-' :: pad2 (min (t.recurringDayOfMonth.getD 0) dim) ++
          'T' :: pad2 ((-tz).toNat / 60) ++ ':' :: pad2 ((-tz).toNat % 60) ++
          ":00.000Z".data) := by
    simp
  rw [hassoc]
  exact listLeads_append_self _ _

/-! ### Lemmas: month arithmetic and date parsing -/

theorem jsMonthStart_norm (y m : Nat) (h1 : 1 ≤ m) (h2 : m ≤ 12) :
    jsMonthStart y m = (jsYearN y, m) := by
  unfold jsMonthStart
  rw [if_neg (by omega)]
  have ha : (m - 1) / 12 = 0 := Nat.div_eq_of_lt (by omega)
  have hb : (m - 1) % 12 = m - 1 := Nat.mod_eq_of_lt (by omega)
  rw [ha, hb]
  simp
  omega

theorem nextMonth_renderYM (y mm : Nat) (h1 : 1 ≤ mm) (h2 : mm ≤ 12)
    (hy : 100 ≤ y) :
    nextMonth (renderYM y mm) =
      some (renderYM (nextMonthYM (y, mm)).1 (nextMonthYM (y, mm)).2) := by
  unfold nextMonth
  rw [parseYM_renderYM]
  simp only [jsMonthStart_id y mm h1 h2 hy]

theorem prevMonth_renderYM (y mm : Nat) (h1 : 1 ≤ mm) (h2 : mm ≤ 12)
    (hy : 100 ≤ y) :
    prevMonth (renderYM y mm) =
      some (renderYM (prevMonthYM (y, mm)).1 (prevMonthYM (y, mm)).2) := by
  unfold prevMonth
  rw [parseYM_renderYM]
  simp only [jsMonthStart_id y mm h1 h2 hy]

theorem digitVal_none_of_not_numericChar (c : Char)
    (h : jsNumericChar c = false) : digitVal c = none := by
  have hd : ¬ c.isDigit = true := by
    intro hd
    unfold jsNumericChar at h
    rw [hd] at h
    simp at h
  unfold digitVal
  rw [if_neg hd]

theorem parseDigitsAux_none (l : List Char) (c : Char) (hc : c ∈ l)
    (h : digitVal c = none) : ∀ acc, parseDigitsAux l acc = none := by
  induction l with
  | nil => cases hc
  | cons d ds ih =>
    intro acc
    rcases List.mem_cons.1 hc with h1 | h1
    · subst h1
      unfold parseDigitsAux
      rw [h]
    · unfold parseDigitsAux
      cases digitVal d with
      | none => rfl
      | some k => exact ih h1 _

theorem jsMakeDate_valid (y mo d : Nat) (h1 : 1 ≤ mo) (h2 : mo ≤ 12)
    (hd1 : 1 ≤ d) (hd2 : d ≤ daysInMonthYM (jsYearN y) mo) :
    jsMakeDate y mo d = (jsYearN y, mo, d) := by
  unfold jsMakeDate
  rw [if_neg (by omega), jsMonthStart_norm y mo h1 h2]
  cases d with
  | zero => omega
  | succ k =>
    show rollUp (k + 1) (jsYearN y, mo, k + 1) = _
    unfold rollUp
    rw [if_pos hd2]

theorem computeRollover_nonneg (cat : Category) (pk : String)
    (E : List Expense) (R : RolloverMap)
    (hstored : ∀ v : ℚ, lookupRM R pk cat.id = some v → 0 ≤ v) :
    0 ≤ computeRollover cat pk E R := by
  unfold computeRollover
  split
  · exact le_refl 0
  · split
    · rename_i v hv
      exact hstored v hv
    · exact le_max_right _ _

/-! ### Claims -/

/-- Exact-arithmetic aggregation identity of the model: with amounts as
exact rationals, `totalSpent` over a month's expenses equals the sum of
the `totalByCategory` values, and `totalSpent` of an empty collection is
`0`.  This identity is a fact about the exact-rational idealization
only: the program sums IEEE-754 doubles, whose additions associate
differently on the two sides (with amounts 0.1, 0.2, 0.4 in two
categories, `(0.1 + 0.2) + 0.4` is `0.7000000000000001` while the
per-category route gives `0.5 + 0.2 = 0.7`), so the corresponding exact
equality is false of the program itself and is *not* claimed of it. -/
theorem totalByCategory_sum_exact (E : List Expense) (m : String) :
    totalSpent (expensesForMonth E m) =
      sumValues (totalByCategory (expensesForMonth E m)) ∧
    totalSpent [] = 0 := by
  constructor
  · unfold totalSpent totalByCategory
    rw [foldl_add_amount, sumValues_foldl_bump]
    simp [sumValues]
  · rfl

/-- C3: `computeRollover` returns `0` when rollover is off or the budget
is `0` (even when an override is stored); otherwise a stored
`rolloverMap[prev][cat]` value verbatim (including `0`, regardless of
expense history); otherwise `max(budget − spent, 0)` where `spent` sums
the category's expenses inside the previous month — and that live value
is never negative. -/
theorem claim_C3_computeRollover_cases (cat : Category) (pk : String)
    (E : List Expense) (R : RolloverMap) :
    ((cat.rollover = false ∨ cat.budget = 0) → computeRollover cat pk E R = 0) ∧
    (∀ v : ℚ, cat.rollover = true → cat.budget ≠ 0 →
      lookupRM R pk cat.id = some v → computeRollover cat pk E R = v) ∧
    (cat.rollover = true → cat.budget ≠ 0 → lookupRM R pk cat.id = none →
      computeRollover cat pk E R =
        max (cat.budget - ((E.filter (fun e => strLeads e.date pk &&
          e.categoryId == cat.id)).map (fun e => e.amount)).sum) 0 ∧
      0 ≤ computeRollover cat pk E R) := by
  refine ⟨?_, ?_, ?_⟩
  · intro h
    unfold computeRollover
    rcases h with h | h
    · rw [if_pos (by simp [h])]
    · rw [if_pos (by simp [h])]
  · intro v hr hb hl
    unfold computeRollover
    rw [if_neg (by simp [hr, hb]), hl]
  · intro hr hb hl
    have he : computeRollover cat pk E R =
        max (cat.budget - ((E.filter (fun e => strLeads e.date pk &&
          e.categoryId == cat.id)).map (fun e => e.amount)).sum) 0 := by
      unfold computeRollover
      rw [if_neg (by simp [hr, hb]), hl]
      unfold expensesForMonth
      rw [List.filter_filter, foldl_add_amount, zero_add]
      have hc : (fun (a : Expense) => a.categoryId == cat.id && strLeads a.date pk)
          = (fun a => strLeads a.date pk && a.categoryId == cat.id) := by
        funext a
        rw [Bool.and_comm]
      rw [hc]
    exact ⟨he, by rw [he]; exact le_max_right _ _⟩

/-- C3 witness (the end-to-end scenario of the spec: budget 100, rollover
on, 60 spent in January 2025, no stored override — rollover 40 ≥ 0). -/
theorem claim_C3_computeRollover_cases_witness :
    computeRollover ⟨"catA", "Food", "", "", 100, false, true⟩ "2025-01"
      [⟨"e1", "catA", 60, "", "2025-01-10T00:00:00.000Z", false, none⟩]
      ([] : RolloverMap) = 40 ∧
    (0 : ℚ) ≤ computeRollover ⟨"catA", "Food", "", "", 100, false, true⟩
      "2025-01"
      [⟨"e1", "catA", 60, "", "2025-01-10T00:00:00.000Z", false, none⟩]
      ([] : RolloverMap) := by
  obtain ⟨h1, h2⟩ :=
    (claim_C3_computeRollover_cases ⟨"catA", "Food", "", "", 100, false, true⟩
      "2025-01" [⟨"e1", "catA", 60, "", "2025-01-10T00:00:00.000Z", false, none⟩]
      ([] : RolloverMap)).2.2 rfl (by norm_num) rfl
  refine ⟨?_, h2⟩
  rw [h1]
  simp only [List.filter_cons, List.filter_nil]
  rw [if_pos (by decide)]
  simp only [List.map_cons, List.map_nil, List.sum_cons, List.sum_nil]
  norm_num

/-- C7 counterexample: the round trip fails on the valid 7-character month
key `"0050-07"` — the JS `Date` constructor maps year components 0–99 to
1900–1999, so `nextMonth("0050-07") = "1950-08"` and applying `prevMonth`
gives `"1950-07"`, not `"0050-07"`. -/
theorem claim_C7_month_roundtrip_counterexample :
    nextMonth "0050-07" = some "1950-08" ∧
    (nextMonth "0050-07").bind prevMonth = some "1950-07" ∧
    (nextMonth "0050-07").bind prevMonth ≠ some "0050-07" := by
  refine ⟨by decide, by decide, by decide⟩

/-- C7 (amended): `prevMonth(nextMonth(m)) = m` and
`nextMonth(prevMonth(m)) = m` for every canonical `"YYYY-MM"` key with a
year component ≥ 101 (years 0–99 are remapped by the JS `Date`
constructor, and `"0100-01"` steps through such a year), including
December/January year boundaries. -/
theorem claim_C7_month_roundtrip_amended (y mm : Nat) (s : String)
    (hy : 101 ≤ y) (h1 : 1 ≤ mm) (h2 : mm ≤ 12) (hk : renderYM y mm = s) :
    (nextMonth s).bind prevMonth = some s ∧
    (prevMonth s).bind nextMonth = some s := by
  subst hk
  constructor
  · rw [nextMonth_renderYM y mm h1 h2 (by omega)]
    by_cases hm : mm = 12
    · subst hm
      have hn : nextMonthYM (y, 12) = (y + 1, 1) := by
        unfold nextMonthYM
        rw [if_pos rfl]
      rw [hn]
      show prevMonth (renderYM (y + 1) 1) = some (renderYM y 12)
      rw [prevMonth_renderYM (y + 1) 1 (by omega) (by omega) (by omega)]
      have hpm : prevMonthYM (y + 1, 1) = (y, 12) := by
        unfold prevMonthYM
        rw [if_pos rfl]
        simp
      rw [hpm]
    · have hn : nextMonthYM (y, mm) = (y, mm + 1) := by
        unfold nextMonthYM
        rw [if_neg (by simpa using hm)]
      rw [hn]
      show prevMonth (renderYM y (mm + 1)) = some (renderYM y mm)
      rw [prevMonth_renderYM y (mm + 1) (by omega) (by omega) (by omega)]
      have hpm : prevMonthYM (y, mm + 1) = (y, mm) := by
        unfold prevMonthYM
        rw [if_neg (by simp; omega)]
        simp
      rw [hpm]
  · rw [prevMonth_renderYM y mm h1 h2 (by omega)]
    by_cases hm : mm = 1
    · subst hm
      have hp' : prevMonthYM (y, 1) = (y - 1, 12) := by
        unfold prevMonthYM
        rw [if_pos rfl]
      rw [hp']
      show nextMonth (renderYM (y - 1) 12) = some (renderYM y 1)
      rw [nextMonth_renderYM (y - 1) 12 (by omega) (by omega) (by omega)]
      have hn : nextMonthYM (y - 1, 12) = (y, 1) := by
        unfold nextMonthYM
        rw [if_pos rfl]
        simp
        omega
      rw [hn]
    · have hp' : prevMonthYM (y, mm) = (y, mm - 1) := by
        unfold prevMonthYM
        rw [if_neg (by simpa using hm)]
      rw [hp']
      show nextMonth (renderYM y (mm - 1)) = some (renderYM y mm)
      rw [nextMonth_renderYM y (mm - 1) (by omega) (by omega) (by omega)]
      have hn : nextMonthYM (y, mm - 1) = (y, mm) := by
        unfold nextMonthYM
        rw [if_neg (by simp; omega)]
        simp
        omega
      rw [hn]

/-- C7 amended witness: both round trips at `"2024-12"` (a year
boundary: `nextMonth` passes through `"2025-01"`). -/
theorem claim_C7_month_roundtrip_amended_witness :
    (nextMonth "2024-12").bind prevMonth = some "2024-12" ∧
    (prevMonth "2024-12").bind nextMonth = some "2024-12" :=
  claim_C7_month_roundtrip_amended 2024 12 "2024-12" (by omega) (by omega)
    (by omega) (by decide)

/-- C5 counterexample: `parseLocalDate "2025-13-01"` — month 13, an
invalid calendar date the claim says is rejected — returns the rolled-over
date 2026-01-01 (local midnight), not an absent result. -/
theorem claim_C5_parseLocalDate_counterexample :
    parseLocalDate "2025-13-01" = some (2026, 1, 1) ∧
    parseLocalDate "2025-13-01" ≠ none := by
  refine ⟨by decide, by decide⟩

/-- C5 (amended): `parseLocalDate` never throws (it is a total function
into `Option`); it returns an absent result when the string does not
split into exactly three `'-'`-separated parts, or some part contains a
character that can occur in no JS numeric literal (so `Number` is
certainly `NaN`; parts using other numeric syntax, such as `"1.5"`, are
*accepted* by JS `Number` and are outside this clause); numeric
components are *not* validated against the calendar — out-of-range
months or days roll over into adjacent months/years (JS `Date`
constructor semantics), e.g. month 13 becomes January of the next
year — and only for components that already form a valid calendar date
(and a year in the JS `Date` range) is the result local midnight of
exactly that date (with constructor years 0–99 denoting 1900–1999). -/
theorem claim_C5_parseLocalDate_amended :
    (∀ s : String, (splitOnDash s.data).length ≠ 3 → parseLocalDate s = none) ∧
    (∀ (s : String) (p : List Char) (c : Char), p ∈ splitOnDash s.data →
      c ∈ p → jsNumericChar c = false → parseLocalDate s = none) ∧
    (∀ (s : String) (p0 p1 p2 : List Char) (y mo d : Nat),
      splitOnDash s.data = [p0, p1, p2] → parseDigits p0 = some y →
      parseDigits p1 = some mo → parseDigits p2 = some d →
      1 ≤ mo → mo ≤ 12 → 1 ≤ d → d ≤ daysInMonthYM (jsYearN y) mo →
      y ≤ 9999 → parseLocalDate s = some (jsYearN y, mo, d)) := by
  refine ⟨?_, ?_, ?_⟩
  · intro s h
    unfold parseLocalDate
    rcases hs : splitOnDash s.data with _ | ⟨a, _ | ⟨b, _ | ⟨c, _ | ⟨e, r⟩⟩⟩⟩
    · rfl
    · rfl
    · rfl
    · rw [hs] at h
      simp at h
    · rfl
  · intro s p c hp hc hnc
    have hdv : digitVal c = none := digitVal_none_of_not_numericChar c hnc
    unfold parseLocalDate
    rcases hs : splitOnDash s.data with _ | ⟨a, _ | ⟨b, _ | ⟨cc, _ | ⟨e, r⟩⟩⟩⟩
    · rfl
    · rfl
    · rfl
    · rw [hs] at hp
      simp only [List.mem_cons, List.not_mem_nil, or_false] at hp
      have hnone : parseDigits a = none ∨ parseDigits b = none ∨
          parseDigits cc = none := by
        rcases hp with rfl | rfl | rfl
        · exact Or.inl (parseDigitsAux_none _ _ hc hdv 0)
        · exact Or.inr (Or.inl (parseDigitsAux_none _ _ hc hdv 0))
        · exact Or.inr (Or.inr (parseDigitsAux_none _ _ hc hdv 0))
      show parseLocalDateParts a b cc = none
      unfold parseLocalDateParts
      rcases hnone with h | h | h
      · rw [h]
      · rw [h]
        all_goals cases parseDigits a <;> cases parseDigits cc <;> rfl
      · rw [h]
        all_goals cases parseDigits a <;> cases parseDigits b <;> rfl
    · rfl
  · intro s p0 p1 p2 y mo d hs h0 h1 h2 hm1 hm2 hd1 hd2 hy
    unfold parseLocalDate
    rw [hs]
    show parseLocalDateParts p0 p1 p2 = _
    unfold parseLocalDateParts
    rw [h0, h1, h2]
    show (if jsDateYearOk (jsMakeDate y mo d).1 then some (jsMakeDate y mo d)
      else none) = _
    rw [jsMakeDate_valid y mo d hm1 hm2 hd1 hd2]
    rw [if_pos (by unfold jsDateYearOk jsYearN; split <;> simp <;> omega)]

/-- C5 amended witness: the three clauses applied at `"2025-03"` (wrong
shape), `"2025-z3-01"` (the letter `z` can occur in no JS numeric
literal, so the month part is `NaN`) and `"2025-03-14"` (valid date,
parsed to local midnight 2025-03-14). -/
theorem claim_C5_parseLocalDate_amended_witness :
    parseLocalDate "2025-03" = none ∧ parseLocalDate "2025-z3-01" = none ∧
    parseLocalDate "2025-03-14" = some (2025, 3, 14) := by
  refine ⟨?_, ?_, ?_⟩
  · exact claim_C5_parseLocalDate_amended.1 "2025-03" (by decide)
  · exact claim_C5_parseLocalDate_amended.2.1 "2025-z3-01" ['z', '3'] 'z'
      (by decide) (by decide) (by decide)
  · exact claim_C5_parseLocalDate_amended.2.2 "2025-03-14"
      ['2', '0', '2', '5'] ['0', '3'] ['1', '4'] 2025 3 14 (by decide)
      (by decide) (by decide) (by decide) (by decide) (by decide) (by decide)
      (by decide) (by decide)

/-- C4 counterexample: with a stored rollover of −50 for the previous
month and a budget of 30, `effectiveBudget` is −20: the stored credit is
returned verbatim (not floored at 0) and the effective budget is
negative, contradicting `effectiveBudget = budget + max(credit, 0) ≥ 0`. -/
theorem claim_C4_effectiveBudget_counterexample :
    effectiveBudget [⟨"c", "Food", "", "", 30, false, true⟩] []
      [("2025-01", [("c", -50)])] "2025-01" "c" < 0 := by
  unfold effectiveBudget
  rw [show List.find? (fun c => c.id == "c")
      [(⟨"c", "Food", "", "", 30, false, true⟩ : Category)] =
      some ⟨"c", "Food", "", "", 30, false, true⟩ from by decide]
  show (if (30 : ℚ) == 0 then 0
    else 30 + computeRollover ⟨"c", "Food", "", "", 30, false, true⟩ "2025-01"
      [] [("2025-01", [("c", -50)])]) < 0
  rw [if_neg (by decide)]
  have hcr : computeRollover ⟨"c", "Food", "", "", 30, false, true⟩ "2025-01"
      [] [("2025-01", [("c", -50)])] = -50 := by
    unfold computeRollover
    rw [if_neg (by decide)]
    rw [show lookupRM [("2025-01", [("c", -50)])] "2025-01" "c" = some (-50)
      from by decide]
  rw [hcr]
  norm_num

/-- C4 (amended): when every stored rollover value for the looked-up
previous-month entry is non-negative (in particular when no override is
stored), the rollover credit entering the effective budget is
non-negative — live-computed credit is floored at 0 by construction —
and `effectiveBudget = budget + max(credit, 0) ≥ 0` for a category with
non-negative budget; a stored *negative* override, however, flows into
the sum unfloored (see the counterexample). -/
theorem claim_C4_effectiveBudget_amended (cats : List Category)
    (E : List Expense) (R : RolloverMap) (pk cid : String) (cat : Category)
    (hfind : cats.find? (fun c => c.id == cid) = some cat)
    (hb : 0 ≤ cat.budget)
    (hstored : ∀ v : ℚ, lookupRM R pk cat.id = some v → 0 ≤ v) :
    0 ≤ effectiveBudget cats E R pk cid ∧
    effectiveBudget cats E R pk cid =
      (if cat.budget = 0 then 0
       else cat.budget + max (computeRollover cat pk E R) 0) := by
  have hnn : 0 ≤ computeRollover cat pk E R :=
    computeRollover_nonneg cat pk E R hstored
  have he : effectiveBudget cats E R pk cid =
      (if cat.budget == 0 then 0
       else cat.budget + computeRollover cat pk E R) := by
    unfold effectiveBudget
    rw [hfind]
  by_cases hz : cat.budget = 0
  · rw [he, if_pos (by simp [hz]), if_pos hz]
    simp
  · rw [he, if_neg (by simp [hz]), if_neg hz, max_eq_left hnn]
    exact ⟨add_nonneg hb hnn, rfl⟩

/-- C4 amended witness: a rollover-enabled category with budget 100, no
expenses and no stored override has a non-negative effective budget of
the floored form. -/
theorem claim_C4_effectiveBudget_amended_witness :
    0 ≤ effectiveBudget [⟨"c", "Food", "", "", 100, false, true⟩] []
      ([] : RolloverMap) "2025-01" "c" ∧
    effectiveBudget [⟨"c", "Food", "", "", 100, false, true⟩] []
      ([] : RolloverMap) "2025-01" "c" =
      (if (Category.budget ⟨"c", "Food", "", "", 100, false, true⟩) = 0 then 0
       else (Category.budget ⟨"c", "Food", "", "", 100, false, true⟩) +
         max (computeRollover ⟨"c", "Food", "", "", 100, false, true⟩
           "2025-01" [] ([] : RolloverMap)) 0) :=
  claim_C4_effectiveBudget_amended [⟨"c", "Food", "", "", 100, false, true⟩]
    [] ([] : RolloverMap) "2025-01" "c" ⟨"c", "Food", "", "", 100, false, true⟩
    (by decide) (by decide)
    (fun v h => absurd h (by simp [lookupRM, List.find?]))

theorem filterMap_cons_some (f : α → Option β) (a : α) (l : List α) (b : β)
    (h : f a = some b) :
    List.filterMap f (a :: l) = b :: List.filterMap f l := by
  rw [List.filterMap_cons, h]

/-- No entry generated from a list of templates whose ids all differ from
`t.id` carries `t`'s derived id. -/
theorem filter_derived_id_nil (tz : Int) (y mm dim : Nat) (mk : String)
    (t : Expense) (monthE X : List Expense)
    (h : ∀ u ∈ X, u.id ≠ t.id) :
    (X.filterMap (genStep tz y mm dim mk monthE)).filter
      (fun e => e.id == strCat (strCat t.id "_") mk) = [] := by
  apply List.filter_eq_nil_iff.2
  intro e he
  rcases List.mem_filterMap.1 he with ⟨u, hu, hstep⟩
  have hue : e = genEntry tz y mm dim mk u :=
    genStep_some_eq _ _ _ _ _ _ _ _ hstep
  simp only [beq_iff_eq]
  intro hcontra
  apply h u hu
  apply strCat_right_cancel _ _ "_"
  apply strCat_right_cancel _ _ mk
  rw [← genEntry_id tz y mm dim mk u, ← hue]
  exact hcontra

/-- C2: a template the existence check does not skip emits exactly one
entry, equal to the template except for the derived id
`<t.id>_<monthKey>` and a date that is the full timestamp of local
midnight on day `min(recurringDayOfMonth, daysInMonth)` — an instant
whose local civil date lies inside the target month; in February the
month length is 29 in leap years and 28 otherwise, so day 31 clamps to
it. -/
theorem claim_C2_generator_emits_instance (tz : Int) (A B : List Expense)
    (mk : String) (y mm : Nat) (t : Expense) (r : Nat)
    (htz1 : -1439 ≤ tz) (htz2 : tz ≤ 1439)
    (hp : parseYM mk = some (y, mm)) (h1 : 1 ≤ mm) (h2 : mm ≤ 12)
    (hy : 100 ≤ y)
    (hrec : t.isRecurring = true) (hr : t.recurringDayOfMonth = some r)
    (hr1 : 1 ≤ r)
    (hskip : (expensesForMonth (A ++ t :: B) mk).any (matchesTemplate t)
      = false)
    (hids : ∀ u ∈ A ++ B, u.id ≠ t.id) :
    ∃ L, generateRecurringForMonth tz (A ++ t :: B) mk = some L ∧
      L.filter (fun e => e.id == strCat (strCat t.id "_") mk) =
        [genEntry tz y mm (daysInMonthYM y mm) mk t] ∧
      genEntry tz y mm (daysInMonthYM y mm) mk t =
        { t with id := strCat (strCat t.id "_") mk,
                 date := renderISO (utcOfLocalMidnight tz y mm
                   (min r (daysInMonthYM y mm))) } ∧
      localCivilOfUTC tz (utcOfLocalMidnight tz y mm
        (min r (daysInMonthYM y mm))) = (y, mm, min r (daysInMonthYM y mm)) ∧
      1 ≤ min r (daysInMonthYM y mm) ∧
      min r (daysInMonthYM y mm) ≤ daysInMonthYM y mm ∧
      (mm = 2 → daysInMonthYM y mm = (if isLeapYear y then 29 else 28)) := by
  have h28 := daysInMonthYM_pos y mm
  have hdmin : 1 ≤ min r (daysInMonthYM y mm) := Nat.le_min.2 ⟨hr1, by omega⟩
  refine ⟨_, generateRecurring_eq tz _ mk y mm hp h1 h2 hy, ?_, ?_, ?_, hdmin,
    Nat.min_le_right _ _, ?_⟩
  · have htT : isTemplate t = true := by
      unfold isTemplate
      rw [hrec, hr]
      rfl
    have hfil : (A ++ t :: B).filter isTemplate =
        A.filter isTemplate ++ t :: B.filter isTemplate := by
      rw [List.filter_append, List.filter_cons, if_pos htT]
    have hstep : genStep tz y mm (daysInMonthYM y mm) mk
        (expensesForMonth (A ++ t :: B) mk) t =
        some (genEntry tz y mm (daysInMonthYM y mm) mk t) :=
      genStep_of_not_any _ _ _ _ _ _ _ hskip
    rw [hfil, List.filterMap_append, filterMap_cons_some _ _ _ _ hstep,
      List.filter_append, List.filter_cons]
    rw [if_pos (by rw [genEntry_id]; exact beq_self_eq_true _)]
    rw [filter_derived_id_nil tz y mm (daysInMonthYM y mm) mk t _ _
      (fun u hu => hids u (List.mem_append.2 (Or.inl (List.mem_filter.1 hu).1)))]
    rw [filter_derived_id_nil tz y mm (daysInMonthYM y mm) mk t _ _
      (fun u hu => hids u (List.mem_append.2 (Or.inr (List.mem_filter.1 hu).1)))]
    rfl
  · unfold genEntry
    rw [hr]
    rfl
  · exact localCivil_utcOfLocalMidnight tz y mm _ htz1 htz2 h1 h2 hdmin
      (Nat.min_le_right _ _) (by omega)
  · intro hmm
    subst hmm
    rfl

/-- C2 witness: the day-31 template generates a February instance clamped
to the 28th in 2025 and to the 29th in the 2024 leap year (environment
offset +60 minutes). -/
theorem claim_C2_generator_emits_instance_witness :
    (∃ L, generateRecurringForMonth 60
        ([] ++ (⟨"t31", "c", 9, "gym", "2025-01-31T00:00:00.000Z", true,
          some 31⟩ : Expense) :: []) "2025-02" = some L ∧
      L.filter (fun e => e.id == strCat (strCat "t31" "_") "2025-02") =
        [genEntry 60 2025 2 (daysInMonthYM 2025 2) "2025-02"
          ⟨"t31", "c", 9, "gym", "2025-01-31T00:00:00.000Z", true, some 31⟩] ∧
      genEntry 60 2025 2 (daysInMonthYM 2025 2) "2025-02"
          ⟨"t31", "c", 9, "gym", "2025-01-31T00:00:00.000Z", true, some 31⟩ =
        { (⟨"t31", "c", 9, "gym", "2025-01-31T00:00:00.000Z", true, some 31⟩ :
            Expense) with
          id := strCat (strCat "t31" "_") "2025-02",
          date := renderISO (utcOfLocalMidnight 60 2025 2
            (min 31 (daysInMonthYM 2025 2))) } ∧
      localCivilOfUTC 60 (utcOfLocalMidnight 60 2025 2
          (min 31 (daysInMonthYM 2025 2))) =
        (2025, 2, min 31 (daysInMonthYM 2025 2)) ∧
      1 ≤ min 31 (daysInMonthYM 2025 2) ∧
      min 31 (daysInMonthYM 2025 2) ≤ daysInMonthYM 2025 2 ∧
      (2 = 2 → daysInMonthYM 2025 2 = (if isLeapYear 2025 then 29 else 28))) ∧
    (∃ L, generateRecurringForMonth 60
        ([] ++ (⟨"t31", "c", 9, "gym", "2025-01-31T00:00:00.000Z", true,
          some 31⟩ : Expense) :: []) "2024-02" = some L ∧
      L.filter (fun e => e.id == strCat (strCat "t31" "_") "2024-02") =
        [genEntry 60 2024 2 (daysInMonthYM 2024 2) "2024-02"
          ⟨"t31", "c", 9, "gym", "2025-01-31T00:00:00.000Z", true, some 31⟩] ∧
      genEntry 60 2024 2 (daysInMonthYM 2024 2) "2024-02"
          ⟨"t31", "c", 9, "gym", "2025-01-31T00:00:00.000Z", true, some 31⟩ =
        { (⟨"t31", "c", 9, "gym", "2025-01-31T00:00:00.000Z", true, some 31⟩ :
            Expense) with
          id := strCat (strCat "t31" "_") "2024-02",
          date := renderISO (utcOfLocalMidnight 60 2024 2
            (min 31 (daysInMonthYM 2024 2))) } ∧
      localCivilOfUTC 60 (utcOfLocalMidnight 60 2024 2
          (min 31 (daysInMonthYM 2024 2))) =
        (2024, 2, min 31 (daysInMonthYM 2024 2)) ∧
      1 ≤ min 31 (daysInMonthYM 2024 2) ∧
      min 31 (daysInMonthYM 2024 2) ≤ daysInMonthYM 2024 2 ∧
      (2 = 2 → daysInMonthYM 2024 2 = (if isLeapYear 2024 then 29 else 28))) :=
  ⟨claim_C2_generator_emits_instance 60 [] []
      "2025-02" 2025 2
      ⟨"t31", "c", 9, "gym", "2025-01-31T00:00:00.000Z", true, some 31⟩ 31
      (by omega) (by omega) (by decide) (by omega) (by omega) (by omega)
      rfl rfl (by omega) (by decide) (by simp),
    claim_C2_generator_emits_instance 60 [] []
      "2024-02" 2024 2
      ⟨"t31", "c", 9, "gym", "2025-01-31T00:00:00.000Z", true, some 31⟩ 31
      (by omega) (by omega) (by decide) (by omega) (by omega) (by omega)
      rfl rfl (by omega) (by decide) (by simp)⟩

/-- C10 (implicit): a recurring template whose own dated entry lies in
the target month (its date string starts with the month key) is matched
by the structural existence check against itself, so a run of the
generator emits no instance derived from it: no returned entry carries
the id `<t.id>_<monthKey>`. -/
theorem claim_C10_template_own_month (tz : Int) (E : List Expense) (mk : String)
    (y mm : Nat) (t : Expense) (r : Nat)
    (hp : parseYM mk = some (y, mm)) (h1 : 1 ≤ mm) (h2 : mm ≤ 12)
    (hy : 100 ≤ y) (ht : t ∈ E) (hrec : t.isRecurring = true)
    (hr : t.recurringDayOfMonth = some r) (hdate : strLeads t.date mk = true)
    (hid : ∀ u ∈ E, u.id = t.id → u = t) :
    ∃ L, generateRecurringForMonth tz E mk = some L ∧
      ∀ e ∈ L, e.id ≠ strCat (strCat t.id "_") mk := by
  refine ⟨_, generateRecurring_eq tz E mk y mm hp h1 h2 hy, ?_⟩
  intro e he hcontra
  rcases List.mem_filterMap.1 he with ⟨u, hu, hstep⟩
  have hue : e = genEntry tz y mm (daysInMonthYM y mm) mk u :=
    genStep_some_eq _ _ _ _ _ _ _ _ hstep
  have hid_eq : u.id = t.id := by
    have hcc : strCat (strCat u.id "_") mk = strCat (strCat t.id "_") mk := by
      rw [← genEntry_id tz y mm (daysInMonthYM y mm) mk u, ← hue]
      exact hcontra
    exact strCat_right_cancel _ _ _ (strCat_right_cancel _ _ _ hcc)
  have hut : u = t := hid u (List.mem_filter.1 hu).1 hid_eq
  rw [hut] at hstep
  have hmem : t ∈ expensesForMonth E mk :=
    List.mem_filter.2 ⟨ht, by simpa using hdate⟩
  have hany : (expensesForMonth E mk).any (matchesTemplate t) = true :=
    List.any_eq_true.2 ⟨t, hmem, matchesTemplate_self t hrec⟩
  rw [genStep_of_any _ _ _ _ _ _ _ hany] at hstep
  cases hstep

/-- C10 witness: a month-3 template dated inside 2025-03 generates
nothing for itself when the generator runs for `"2025-03"`. -/
theorem claim_C10_template_own_month_witness :
    ∃ L, generateRecurringForMonth 0
      [⟨"t1", "c", 50, "rent", "2025-03-05T00:00:00.000Z", true, some 5⟩]
      "2025-03" = some L ∧
    ∀ e ∈ L, e.id ≠ strCat (strCat "t1" "_") "2025-03" :=
  claim_C10_template_own_month 0
    [⟨"t1", "c", 50, "rent", "2025-03-05T00:00:00.000Z", true, some 5⟩]
    "2025-03" 2025 3
    ⟨"t1", "c", 50, "rent", "2025-03-05T00:00:00.000Z", true, some 5⟩ 5
    (by decide) (by omega) (by omega) (by omega) (by simp) rfl rfl (by decide)
    (fun u hu _ => by simpa using hu)

/-- C6 counterexample: two distinct recurring templates with identical
categoryId/note/amount and no matching entry in the target month both
generate — a single run for `"2025-02"` returns two instances, not the
single instance the claim asserts. -/
theorem claim_C6_structural_dedup_counterexample :
    (generateRecurringForMonth 0
      [⟨"t1", "c", 50, "x", "2025-01-05T00:00:00.000Z", true, some 5⟩,
       ⟨"t2", "c", 50, "x", "2025-01-06T00:00:00.000Z", true, some 6⟩]
      "2025-02").map List.length = some 2 ∧
    (generateRecurringForMonth 0
      [⟨"t1", "c", 50, "x", "2025-01-05T00:00:00.000Z", true, some 5⟩,
       ⟨"t2", "c", 50, "x", "2025-01-06T00:00:00.000Z", true, some 6⟩]
      "2025-02").map List.length ≠ some 1 := by
  refine ⟨by decide, by decide⟩

/-- C6 (amended): the structural-equality existence check only consults
entries already present in the target month *before* the run, so two
coexisting templates with identical categoryId/note/amount each emit
their own instance in a single run — at least two matching entries are
returned; only across persisted runs does the structural check collapse
them. -/
theorem claim_C6_structural_dedup_amended (tz : Int) (A B C : List Expense)
    (mk : String) (y mm : Nat) (t1 t2 : Expense)
    (hp : parseYM mk = some (y, mm)) (h1 : 1 ≤ mm) (h2 : mm ≤ 12)
    (hy : 100 ≤ y)
    (hrec1 : t1.isRecurring = true) (hr1 : t1.recurringDayOfMonth.isSome = true)
    (hrec2 : t2.isRecurring = true) (hr2 : t2.recurringDayOfMonth.isSome = true)
    (hcat : t2.categoryId = t1.categoryId) (hnote : t2.note = t1.note)
    (hamt : t2.amount = t1.amount)
    (hno1 : (expensesForMonth (A ++ t1 :: B ++ t2 :: C) mk).any
      (matchesTemplate t1) = false) :
    ∃ L, generateRecurringForMonth tz (A ++ t1 :: B ++ t2 :: C) mk = some L ∧
      2 ≤ L.countP (matchesTemplate t1) := by
  refine ⟨_, generateRecurring_eq tz _ mk y mm hp h1 h2 hy, ?_⟩
  have ht1T : isTemplate t1 = true := by unfold isTemplate; rw [hrec1, hr1]; rfl
  have ht2T : isTemplate t2 = true := by unfold isTemplate; rw [hrec2, hr2]; rfl
  have hkey : matchesTemplate t2 = matchesTemplate t1 := by
    funext e
    unfold matchesTemplate
    rw [hcat, hnote, hamt]
  have hno2 : (expensesForMonth (A ++ t1 :: B ++ t2 :: C) mk).any
      (matchesTemplate t2) = false := by rw [hkey]; exact hno1
  rw [List.countP_filterMap, List.countP_filter]
  have hg1 : ((Option.map (matchesTemplate t1)
      (genStep tz y mm (daysInMonthYM y mm) mk
        (expensesForMonth (A ++ t1 :: B ++ t2 :: C) mk) t1)).getD false &&
      isTemplate t1) = true := by
    rw [genStep_of_not_any _ _ _ _ _ _ _ hno1, ht1T]
    simp [matchesTemplate_genEntry _ _ _ _ _ _ hrec1]
  have hg2 : ((Option.map (matchesTemplate t1)
      (genStep tz y mm (daysInMonthYM y mm) mk
        (expensesForMonth (A ++ t1 :: B ++ t2 :: C) mk) t2)).getD false &&
      isTemplate t2) = true := by
    rw [genStep_of_not_any _ _ _ _ _ _ _ hno2, ht2T]
    have hmm2 : matchesTemplate t1
        (genEntry tz y mm (daysInMonthYM y mm) mk t2) = true := by
      unfold matchesTemplate genEntry
      simp only
      rw [hrec2, hcat, hnote, hamt]
      simp
    simp [hmm2]
  rw [List.countP_append, List.countP_cons, List.countP_append,
    List.countP_cons, if_pos hg1, if_pos hg2]
  omega

/-- C6 amended witness: the two concrete identical templates of the
counterexample both generate in one run. -/
theorem claim_C6_structural_dedup_amended_witness :
    ∃ L, generateRecurringForMonth 0
      ([] ++ (⟨"t1", "c", 50, "x", "2025-01-05T00:00:00.000Z", true, some 5⟩ :
        Expense) :: [] ++
        (⟨"t2", "c", 50, "x", "2025-01-06T00:00:00.000Z", true, some 6⟩ :
          Expense) :: []) "2025-02" = some L ∧
    2 ≤ L.countP (matchesTemplate
      ⟨"t1", "c", 50, "x", "2025-01-05T00:00:00.000Z", true, some 5⟩) :=
  claim_C6_structural_dedup_amended 0 [] [] [] "2025-02" 2025 2
    ⟨"t1", "c", 50, "x", "2025-01-05T00:00:00.000Z", true, some 5⟩
    ⟨"t2", "c", 50, "x", "2025-01-06T00:00:00.000Z", true, some 6⟩
    (by decide) (by omega) (by omega) (by omega) rfl rfl rfl rfl
    (by decide) (by decide) (by decide) (by decide)

/-- C1 counterexample: in an environment east of UTC (offset +60 minutes,
e.g. Madrid in winter — the deployment the source's own comments name), a
day-1 template generated for `"2025-03"` gets the `toISOString` date
`"2025-02-28T23:00:00.000Z"`, which does not start with `"2025-03"`; the
persisted entry escapes the month filter and the second call returns two
further entries instead of none. -/
theorem claim_C1_recurring_idempotence_counterexample :
    ∃ L1, generateRecurringForMonth 60
        [⟨"t1", "c", 50, "rent", "2025-01-01T23:00:00.000Z", true, some 1⟩]
        "2025-03" = some L1 ∧
      generateRecurringForMonth 60
        ([⟨"t1", "c", 50, "rent", "2025-01-01T23:00:00.000Z", true, some 1⟩]
          ++ L1) "2025-03" ≠ some [] ∧
      (generateRecurringForMonth 60
        ([⟨"t1", "c", 50, "rent", "2025-01-01T23:00:00.000Z", true, some 1⟩]
          ++ L1) "2025-03").map List.length = some 2 := by
  refine ⟨[⟨"t1_2025-03", "c", 50, "rent", "2025-02-28T23:00:00.000Z", true,
    some 1⟩], by decide, by decide, by decide⟩

/-- C1 (amended): generation is idempotent — appending one run's output
and running again for the same canonical month key produces zero new
entries — in every environment at or west of UTC (offset ≤ 0) and for
recurring day-of-month values ≥ 1; east of UTC a day-1 instance's UTC
ISO date falls into the previous month and escapes the dedup filter (see
the counterexample). -/
theorem claim_C1_recurring_idempotence_amended (tz : Int) (E : List Expense)
    (mk : String) (y mm : Nat) (L1 : List Expense)
    (htz1 : -1439 ≤ tz) (htz2 : tz ≤ 0)
    (hp : parseYM mk = some (y, mm)) (h1 : 1 ≤ mm) (h2 : mm ≤ 12)
    (hy : 100 ≤ y) (hk : renderYM y mm = mk)
    (hdom : ∀ u ∈ E, isTemplate u = true → 1 ≤ u.recurringDayOfMonth.getD 0)
    (hgen : generateRecurringForMonth tz E mk = some L1) :
    generateRecurringForMonth tz (E ++ L1) mk = some [] := by
  rw [generateRecurring_eq tz E mk y mm hp h1 h2 hy] at hgen
  have hL1 : L1 = (E.filter isTemplate).filterMap
      (genStep tz y mm (daysInMonthYM y mm) mk (expensesForMonth E mk)) :=
    (Option.some.injEq _ _ ▸ hgen).symm
  have hmemL1 : ∀ e ∈ L1, ∃ u, u ∈ E ∧ isTemplate u = true ∧
      e = genEntry tz y mm (daysInMonthYM y mm) mk u := by
    intro e he
    rw [hL1] at he
    rcases List.mem_filterMap.1 he with ⟨u, hu, hstep⟩
    exact ⟨u, (List.mem_filter.1 hu).1, (List.mem_filter.1 hu).2,
      genStep_some_eq _ _ _ _ _ _ _ _ hstep⟩
  have hlead : ∀ e ∈ L1, strLeads e.date mk = true := by
    intro e he
    rcases hmemL1 e he with ⟨u, huE, huT, rfl⟩
    apply strLeads_genEntry_date tz y mm (daysInMonthYM y mm) mk u htz2 hk
    have h28 := daysInMonthYM_pos y mm
    have := hdom u huE huT
    omega
  have hme : expensesForMonth (E ++ L1) mk = expensesForMonth E mk ++ L1 := by
    unfold expensesForMonth
    rw [List.filter_append]
    congr 1
    exact List.filter_eq_self.2 (fun e he => by simpa using hlead e he)
  rw [generateRecurring_eq tz (E ++ L1) mk y mm hp h1 h2 hy]
  congr 1
  apply List.filterMap_eq_nil_iff.2
  intro u hu
  rcases List.mem_filter.1 hu with ⟨huIn, huT⟩
  rcases List.mem_append.1 huIn with huE | huL1
  · by_cases hex : (expensesForMonth E mk).any (matchesTemplate u) = true
    · apply genStep_of_any
      rw [hme, List.any_append, hex]
      rfl
    · have hexf : (expensesForMonth E mk).any (matchesTemplate u) = false := by
        simpa using hex
      have hstep : genStep tz y mm (daysInMonthYM y mm) mk
          (expensesForMonth E mk) u =
          some (genEntry tz y mm (daysInMonthYM y mm) mk u) :=
        genStep_of_not_any _ _ _ _ _ _ _ hexf
      have hin : genEntry tz y mm (daysInMonthYM y mm) mk u ∈ L1 := by
        rw [hL1]
        exact List.mem_filterMap.2 ⟨u, List.mem_filter.2 ⟨huE, huT⟩, hstep⟩
      apply genStep_of_any
      apply List.any_eq_true.2
      refine ⟨genEntry tz y mm (daysInMonthYM y mm) mk u, ?_, ?_⟩
      · rw [hme]
        exact List.mem_append.2 (Or.inr hin)
      · exact matchesTemplate_genEntry _ _ _ _ _ _
          (isTemplate_isRecurring u huT)
  · rcases hmemL1 u huL1 with ⟨v, hvE, hvT, hveq⟩
    apply genStep_of_any
    apply List.any_eq_true.2
    refine ⟨u, ?_, ?_⟩
    · rw [hme]
      exact List.mem_append.2 (Or.inr huL1)
    · apply matchesTemplate_self
      rw [hveq, genEntry_isRecurring]
      exact isTemplate_isRecurring v hvT

/-- C1 amended witness: at UTC (offset 0) the second call for
`"2025-03"` on the persisted output generates nothing. -/
theorem claim_C1_recurring_idempotence_amended_witness :
    generateRecurringForMonth 0
      ([⟨"t1", "c", 50, "rent", "2025-01-01T00:00:00.000Z", true, some 1⟩] ++
        [⟨"t1_2025-03", "c", 50, "rent", "2025-03-01T00:00:00.000Z", true,
          some 1⟩]) "2025-03" = some [] :=
  claim_C1_recurring_idempotence_amended 0
    [⟨"t1", "c", 50, "rent", "2025-01-01T00:00:00.000Z", true, some 1⟩]
    "2025-03" 2025 3
    [⟨"t1_2025-03", "c", 50, "rent", "2025-03-01T00:00:00.000Z", true, some 1⟩]
    (by omega) (by omega) (by decide) (by omega) (by omega) (by omega)
    (by decide) (by decide) (by decide)

theorem lookupCatLast_aux (cid : String) (l : List Category) :
    ∀ acc : Option Category,
      (l.foldl (fun acc c => if c.id == cid then some c else acc) acc = none) ↔
      (acc = none ∧ ∀ c ∈ l, (c.id == cid) = false) := by
  induction l with
  | nil => intro acc; simp
  | cons c cs ih =>
    intro acc
    rw [List.foldl_cons]
    by_cases h : (c.id == cid) = true
    · rw [if_pos h, ih (some c)]
      constructor
      · rintro ⟨h1, -⟩
        cases h1
      · rintro ⟨-, hall⟩
        have := hall c (by simp)
        rw [h] at this
        cases this
    · rw [if_neg h, ih acc]
      constructor
      · rintro ⟨h1, hall⟩
        refine ⟨h1, fun d hd => ?_⟩
        rcases List.mem_cons.1 hd with rfl | hd2
        · simpa using h
        · exact hall d hd2
      · rintro ⟨h1, hall⟩
        exact ⟨h1, fun d hd => hall d (by simp [hd])⟩

/-- A dangling category reference is exactly one whose id matches no
category in the lookup list (so the exporter falls back to "Unknown"). -/
theorem lookupCatLast_none_iff (cats : List Category) (cid : String) :
    lookupCatLast cats cid = none ↔ ∀ c ∈ cats, c.id ≠ cid := by
  unfold lookupCatLast
  rw [lookupCatLast_aux cid cats none]
  simp only [true_and, beq_eq_false_iff_ne]

theorem csvRowOf_of_isSome (tz : Int) (cats : List Category) (cur : String)
    (e : Expense) (h : (getTimeISO e.date).isSome = true) :
    csvRowOf tz cats cur e = some (String.intercalate ","
      [csvDateStr tz ((getTimeISO e.date).getD 0),
       catNameField cats e.categoryId, toFixed2 e.amount, cur,
       noteField e.note, if e.isRecurring then "yes" else "no"]) := by
  unfold csvRowOf
  cases ho : getTimeISO e.date with
  | none => rw [ho] at h; cases h
  | some t => rfl

/-- C9: `buildCSV` emits the literal header line followed by one row per
expense joined by "\n"; the rows come from a permutation of the input
sorted ascending by the parsed date/time; each row joins with "," the
local `yyyy-MM-dd` date, the category name (with the literal "Unknown"
exactly for dangling references), the amount with exactly two decimal
digits, the constant settings currency, the double-quoted note with
every internal quote doubled (an empty note giving the empty quoted
string), and the literal yes/no recurring flag. -/
theorem claim_C9_buildCSV_shape (tz : Int) (E : List Expense)
    (cats : List Category) (cur : String)
    (hdates : ∀ e ∈ E, (getTimeISO e.date).isSome = true) :
    ∃ (sorted : List Expense) (rows : List String),
      buildCSV tz E cats cur = some (String.intercalate "\n"
        ("Date,Category,Amount,Currency,Note,Recurring" :: rows)) ∧
      sorted.Perm E ∧
      sorted.Pairwise (fun a b => sortKeyD a ≤ sortKeyD b) ∧
      rows = sorted.map (fun e => String.intercalate ","
        [csvDateStr tz ((getTimeISO e.date).getD 0),
         catNameField cats e.categoryId, toFixed2 e.amount, cur,
         noteField e.note, if e.isRecurring then "yes" else "no"]) ∧
      rows.length = E.length ∧
      (∀ cid : String, lookupCatLast cats cid = none ↔
        ∀ c ∈ cats, c.id ≠ cid) ∧
      (∀ q : ℚ, ∃ pre frac : String,
        toFixed2 q = strCat (strCat pre ".") frac ∧ frac.data.length = 2 ∧
        ∀ ch ∈ frac.data, ch.isDigit = true) ∧
      (∀ s : String, quoteCount (escapeQuotes s) = 2 * quoteCount s) ∧
      noteField "" = "\"\"" := by
  refine ⟨E.mergeSort dateLE, _, ?_, List.mergeSort_perm E dateLE, ?_, rfl, ?_,
    lookupCatLast_none_iff cats, toFixed2_decomposition,
    quoteCount_escapeQuotes, by decide⟩
  · unfold buildCSV
    rw [optionMapList_eq_map (csvRowOf tz cats cur) _ (E.mergeSort dateLE)
      (fun e he => csvRowOf_of_isSome tz cats cur e
        (hdates e ((List.mergeSort_perm E dateLE).mem_iff.1 he)))]
    rfl
  · exact (List.sorted_mergeSort dateLE_trans dateLE_total E).imp
      (fun h => by unfold dateLE at h; exact of_decide_eq_true h)
  · rw [List.length_map, (List.mergeSort_perm E dateLE).length_eq]

/-- C9 witness: the spec's own example — an expense of 12.5 with note
`a,b"c` in category Food — satisfies the characterization. -/
theorem claim_C9_buildCSV_shape_witness :
    ∃ (sorted : List Expense) (rows : List String), buildCSV 0
        [⟨"e1", "catX", 12.5, "a,b\"c", "2025-03-14T00:00:00.000Z", false,
          none⟩] [⟨"catX", "Food", "", "", 0, false, false⟩] "€" =
        some (String.intercalate "\n"
          ("Date,Category,Amount,Currency,Note,Recurring" :: rows)) ∧
      sorted.Perm [⟨"e1", "catX", 12.5, "a,b\"c", "2025-03-14T00:00:00.000Z",
        false, none⟩] ∧
      sorted.Pairwise (fun a b => sortKeyD a ≤ sortKeyD b) ∧
      rows = sorted.map (fun e => String.intercalate ","
        [csvDateStr 0 ((getTimeISO e.date).getD 0),
         catNameField [⟨"catX", "Food", "", "", 0, false, false⟩] e.categoryId,
         toFixed2 e.amount, "€", noteField e.note,
         if e.isRecurring then "yes" else "no"]) ∧
      rows.length = [(⟨"e1", "catX", 12.5, "a,b\"c",
        "2025-03-14T00:00:00.000Z", false, none⟩ : Expense)].length ∧
      (∀ cid : String,
        lookupCatLast [⟨"catX", "Food", "", "", 0, false, false⟩] cid = none ↔
        ∀ c ∈ [(⟨"catX", "Food", "", "", 0, false, false⟩ : Category)],
          c.id ≠ cid) ∧
      (∀ q : ℚ, ∃ pre frac : String,
        toFixed2 q = strCat (strCat pre ".") frac ∧ frac.data.length = 2 ∧
        ∀ ch ∈ frac.data, ch.isDigit = true) ∧
      (∀ s : String, quoteCount (escapeQuotes s) = 2 * quoteCount s) ∧
      noteField "" = "\"\"" :=
  claim_C9_buildCSV_shape 0
    [⟨"e1", "catX", 12.5, "a,b\"c", "2025-03-14T00:00:00.000Z", false, none⟩]
    [⟨"catX", "Food", "", "", 0, false, false⟩] "€" (by decide)

end BudgetApp
